import Mathlib

/-!
# vscode_php_ctags: the tag manager (`out/src/ctag_manager.js`)

A shallow embedding of `CTAG_Manager`: the tag-line parser `_extract_tag`, the
search loop `_tag_search`, the status machine driven by `_load_tags`,
`load_tags` and `generate_tag` together with the callbacks they register, the
labels of `_show_quick_pick` with the resolution of the chosen label through
`_goto_tag_on_doc`, and `outline`.

Modelling conventions.

* A JavaScript string is a `List Char` (`Str`).  Every string operation the
  manager uses (`split`, `replace`, `indexOf`, `substr`, indexing at 0) works
  on code units and is insensitive to the difference between code units and
  code points on well-formed strings.
* A JavaScript number that `parseInt(_, 10) - 1` can produce is a `JSNum`:
  `NaN`, an infinity, or an integer that is exactly representable as an IEEE
  double.  Integers are rounded to the nearest double (ties to even) by
  `roundToDouble`.
* `String.prototype.toLowerCase` is a parameter `toLowerCase : Str → Str` of
  the definitions that use it; `asciiLower` is its restriction to ASCII, used
  when a definition is evaluated on a concrete input.
* The helpers of `file_manager.js` and `notification.js`, `vscode` and the
  Node library are the environment: their answers are fields of `Env`, their
  invocations are recorded as `Effect`s.
* A method that mutates `this` is a function from the state before to an
  `Outcome`: the state after, the effects in program order, and the exception
  that ended the call, if any.
* A request to a collaborator is recorded at the point of the call; what the
  collaborator does with it (the generator run, the read, the editor moving
  to a line) is not part of the model, and its callbacks are events of their
  own.
-/

namespace CtagManager

/-! ## Strings -/

/-- JavaScript string. -/
abbrev Str := List Char

/-- The tab character, the separator of a tag line. -/
def TAB : Char := Char.ofNat 9

/-- The double quote character. -/
def DQUOTE : Char := Char.ofNat 34

/-- The marker that follows the line number of a tag line: a semicolon and a double quote. -/
def MARK : Str := [';', DQUOTE]

/-- The method `s.split(sep)` for a one-character separator: the fields between the
separators; a string without separator is its own single field. -/
def split (sep : Char) : Str → List Str
  | [] => [[]]
  | c :: cs =>
    if c = sep then [] :: split sep cs
    else
      match split sep cs with
      | [] => [[c]]
      | field :: fields => (c :: field) :: fields

/-- The method `s.replace(pat, '')` for a string pattern: the first occurrence of `pat`
is removed, a string without occurrence is returned as it is. -/
def removeFirst (pat : Str) : Str → Str
  | [] => []
  | c :: cs =>
    if pat.isPrefixOf (c :: cs) then (c :: cs).drop pat.length
    else c :: removeFirst pat cs

/-- The method `s.indexOf(needle)` counted from position `i` of the original string. -/
def indexOfFrom (needle : Str) : Str → Nat → Int
  | [], i => if needle.isPrefixOf [] then (i : Int) else -1
  | c :: cs, i =>
    if needle.isPrefixOf (c :: cs) then (i : Int) else indexOfFrom needle cs (i + 1)

/-- The method `s.indexOf(needle)`: the position of the first occurrence, or `-1`. -/
def indexOf (s needle : Str) : Int := indexOfFrom needle s 0

/-- The restriction of `toLowerCase` to ASCII letters. -/
def asciiLower (s : Str) : Str := s.map Char.toLower

/-! ## Numbers -/

/-- The values `parseInt(_, 10) - 1` ranges over. `fin v` is the double whose
value is the integer `v` (negative zero is identified with zero: both give
`-1` once one is subtracted). -/
inductive JSNum where
  | NaN
  | posInf
  | negInf
  | fin (v : Int)
  deriving DecidableEq, Repr

/-- The number of halvings that bring `m` below `2 ^ 53`. -/
def excessBits : Nat → Nat → Nat
  | 0, _ => 0
  | fuel + 1, m => if m < 2 ^ 53 then 0 else excessBits fuel (m / 2) + 1

/-- The double nearest to the natural number `m`, ties to even, as a natural
number; `none` when the rounding overflows to infinity. Every `m ≤ 2 ^ 53` is
a double. Above, a double keeps 53 significant bits: with `k` the number of
bits to drop, `m` is rounded to a multiple `q1 * 2 ^ k`, which has `k + 53`
binary digits (one more when the rounding carries into `2 ^ 53`) and is finite
when it has at most 1024 of them. -/
def roundNat (m : Nat) : Option Nat :=
  if m ≤ 2 ^ 53 then some m
  else
    let k := excessBits m m
    let q := m / 2 ^ k
    let r := m % 2 ^ k
    let half := 2 ^ (k - 1)
    let q1 := if half < r ∨ (r = half ∧ q % 2 = 1) then q + 1 else q
    if k + (if q1 < 2 ^ 53 then 53 else 54) ≤ 1024 then some (q1 * 2 ^ k) else none

/-- The Number value of a mathematical integer. -/
def roundToDouble (z : Int) : JSNum :=
  match roundNat z.natAbs with
  | some m => if z < 0 then JSNum.fin (-(m : Int)) else JSNum.fin m
  | none => if z < 0 then JSNum.negInf else JSNum.posInf

/-- The expression `x - 1` on Number values. -/
def JSNum.sub1 : JSNum → JSNum
  | JSNum.NaN => JSNum.NaN
  | JSNum.posInf => JSNum.posInf
  | JSNum.negInf => JSNum.negInf
  | JSNum.fin v => roundToDouble (v - 1)

/-- The white space and line terminator characters `parseInt` skips. -/
def isWhiteSpace (c : Char) : Bool :=
  [9, 10, 11, 12, 13, 32, 160, 5760, 8192, 8193, 8194, 8195, 8196, 8197, 8198,
    8199, 8200, 8201, 8202, 8232, 8233, 8239, 8287, 12288, 65279].contains c.toNat

/-- The decimal digits. -/
def isDigit (c : Char) : Bool := decide (48 ≤ c.toNat ∧ c.toNat ≤ 57)

/-- The value of a string of decimal digits, most significant digit first,
continuing from the value `acc` of the digits already read. -/
def digitsValue (acc : Nat) : Str → Nat
  | [] => acc
  | c :: cs => digitsValue (acc * 10 + (c.toNat - 48)) cs

/-- The function `parseInt(s, 10)`: leading white space is skipped, one sign is read, the
longest run of decimal digits that follows is the value; `NaN` when that run
is empty. (Past 20 significant digits an engine may approximate the value;
the exact value is taken here.) -/
def parseInt (s : Str) : JSNum :=
  let s1 := s.dropWhile isWhiteSpace
  let neg : Bool := s1.head? = some '-'
  let s2 := if s1.head? = some '-' ∨ s1.head? = some '+' then s1.drop 1 else s1
  let z := s2.takeWhile isDigit
  if z = [] then JSNum.NaN
  else if neg then roundToDouble (-(digitsValue 0 z : Int))
  else roundToDouble (digitsValue 0 z)

/-! ## The tag record -/

/-- The record `_extract_tag` builds. -/
structure TagInfo where
  symbol : Str
  file : Str
  lineNum : JSNum
  type : Str
  deriving DecidableEq, Repr

/-- The method `CTAG_Manager.prototype._extract_tag`: `none` is the `null` returned for a
line with fewer than four tab-separated fields. -/
def _extract_tag (line : Str) : Option TagInfo :=
  match split TAB line with
  | f0 :: f1 :: f2 :: f3 :: _ =>
    some { symbol := f0, file := f1, lineNum := (parseInt (removeFirst MARK f2)).sub1, type := f3 }
  | _ => none

/-- A line of a tag file made of the given fields. -/
def tagLine (fields : List String) : Str :=
  match fields with
  | [] => []
  | [f] => f.toList
  | f :: fs => f.toList ++ TAB :: tagLine fs

/-- The text of the fields that follow the fourth one, each behind its tab. -/
def furtherFields : List Str → Str
  | [] => []
  | e :: es => TAB :: (e ++ furtherFields es)

/-! ## The manager state and its environment -/

/-- The command name. -/
def CTAG_COMMAND : Str := "ctags".toList

/-- The name of the tag file, relative to the workspace root. -/
def CTAGS_TAG_FILE_NAME : Str := "ctags.tmp".toList

/-- The options of a generation run. -/
def CTAG_OPTION : Str :=
  "-R --fields=-aiklmnSzt+fsK --languages=php --php-kinds=cidf --excmd=number".toList

/-- The size cap of a tag file: 50MB. -/
def LARGE_FILE_SIZE_BYTE : Nat := 50 * 1024 * 1024

/-- The enumeration `Status`. -/
inductive Status where
  | NONE
  | GENERATING
  | GENERATED
  | LOADING
  | LOADED
  deriving DecidableEq, Repr

/-- The fields of a `CTAG_Manager` object. `_current_path` is `none` when it
holds `undefined`; `_status` is `none` until the first reset assigns it. -/
structure CTAG_Manager where
  _ctags_tagpath : Str
  _current_path : Option Str
  _status : Option Status
  _tags : List Str
  deriving DecidableEq, Repr

/-- The exceptions a call can end with. -/
inductive JSError where
  | TypeError
  | ReferenceError
  deriving DecidableEq, Repr

deriving instance DecidableEq for Except

/-- What a call asks of its collaborators, in program order. -/
inductive Effect where
  /-- A call `notification.print_error(msg)`. -/
  | print_error (msg : Str)
  /-- A call `notification.print_info(msg)`. -/
  | print_info (msg : Str)
  /-- A call `file_manager.parse_file_line(path, ...)`: a read of the file is started. -/
  | parse_file_line (path : Str)
  /-- A call `exec(command, options, ...)` with `options.cwd = cwd`: the external generator is started. -/
  | exec (command : Str) (cwd : Option Str)
  /-- A call `vscode.window.showQuickPick(labels)`. -/
  | showQuickPick (labels : List Str)
  /-- A call `error(msg)` of the callback the caller of `search` passed in. -/
  | error (msg : Str)
  deriving DecidableEq, Repr

/-- The answers of the collaborators at the time of a call:
`vscode.workspace.rootPath` (`none` for `undefined`), `require('path').join`
on two strings, `file_manager.file_exists` and `file_manager.test_file_size`
(which answers `false` for a file larger than the limit). -/
structure Env where
  rootPath : Option Str
  join : Str → Str → Str
  file_exists : Str → Bool
  test_file_size : Str → Nat → Bool

/-- The result of a call on the manager. -/
structure Outcome where
  state : CTAG_Manager
  effects : List Effect
  thrown : Option JSError
  deriving DecidableEq, Repr

/-! ## The status machine -/

/-- The method `CTAG_Manager.prototype._reset_if_need`. `path.join` throws a `TypeError`
for an `undefined` root, after `_current_path` has been assigned. -/
def _reset_if_need (env : Env) (m : CTAG_Manager) : Outcome :=
  if m._current_path ≠ env.rootPath then
    match env.rootPath with
    | none => { state := { m with _current_path := none }, effects := [], thrown := some JSError.TypeError }
    | some root =>
      { state :=
          { _current_path := some root
            _ctags_tagpath := env.join root CTAGS_TAG_FILE_NAME
            _status := some Status.NONE
            _tags := [] }
        effects := []
        thrown := none }
  else { state := m, effects := [], thrown := none }

/-- The method `CTAG_Manager.prototype._get_tagpath`. -/
def _get_tagpath (m : CTAG_Manager) : Str := m._ctags_tagpath

/-- The constructor `CTAG_Manager()`. -/
def CTAG_Manager.new (env : Env) : Outcome :=
  _reset_if_need env { _ctags_tagpath := [], _current_path := some [], _status := none, _tags := [] }

/-- The message of a refused load. -/
def largeFileMessage : Str :=
  "Can".toList ++ Char.ofNat 39 :: "t load large ctag file larger than ".toList
    ++ Nat.toDigits 10 (LARGE_FILE_SIZE_BYTE / 1024 / 1024)
    ++ "MB. Loading has been cancelled".toList

/-- The method `CTAG_Manager.prototype._load_tags`, up to the registration of the three
callbacks of `parse_file_line`. -/
def _load_tags (env : Env) (m : CTAG_Manager) : Outcome :=
  if m._status = some Status.LOADING then
    { state := m, effects := [], thrown := none }
  else
    let m1 := { m with _status := some Status.LOADING }
    if !env.test_file_size m1._ctags_tagpath LARGE_FILE_SIZE_BYTE then
      { state := m1, effects := [Effect.print_error largeFileMessage], thrown := none }
    else
      { state := m1, effects := [Effect.parse_file_line m1._ctags_tagpath], thrown := none }

/-- The first callback of `_load_tags`: a line is delivered. -/
def _load_tags_line (m : CTAG_Manager) (line : Str) : CTAG_Manager :=
  if line ≠ [] ∧ line.head? ≠ some '!' then { m with _tags := m._tags ++ [line] } else m

/-- The second callback of `_load_tags`: the read failed. -/
def _load_tags_error (m : CTAG_Manager) : Outcome :=
  { state := { m with _status := some Status.NONE }
    effects := [Effect.print_error "Error on loading ctag info.".toList]
    thrown := none }

/-- The third callback of `_load_tags`: the read is complete. -/
def _load_tags_end (m : CTAG_Manager) : Outcome :=
  { state := { m with _status := some Status.LOADED }, effects := [], thrown := none }

/-- The lines a read delivers, one call of the line callback each. -/
def deliver (m : CTAG_Manager) (lines : List Str) : CTAG_Manager :=
  lines.foldl _load_tags_line m

/-- The method `CTAG_Manager.prototype.load_tags`. The identifier `error` is bound
nowhere in its scope: the call `error(...)` ends with a `ReferenceError`. -/
def load_tags (env : Env) (m : CTAG_Manager) : Outcome :=
  let r := _reset_if_need env m
  match r.thrown with
  | some _ => r
  | none =>
    if r.state._status ≠ some Status.LOADED then
      if !env.file_exists (_get_tagpath r.state) then
        { state := r.state, effects := [], thrown := some JSError.ReferenceError }
      else _load_tags env r.state
    else r

/-- The command line of a generation run. -/
def generateCommand : Str :=
  CTAG_COMMAND ++ ' ' :: CTAG_OPTION ++ " -f ".toList ++ CTAGS_TAG_FILE_NAME

/-- The method `CTAG_Manager.prototype.generate_tag`, up to the start of the generator. -/
def generate_tag (env : Env) (m : CTAG_Manager) : Outcome :=
  let r := _reset_if_need env m
  match r.thrown with
  | some _ => r
  | none =>
    if r.state._status = some Status.GENERATING ∨ r.state._status = some Status.LOADING then r
    else
      { state := { r.state with _status := some Status.LOADING }
        effects :=
          [Effect.print_info "Generating ctag file...".toList,
           Effect.exec generateCommand r.state._current_path]
        thrown := none }

/-- The completion callback `generate_tag` gives to `exec`. -/
def generate_tag_done (env : Env) (m : CTAG_Manager) : Outcome :=
  let r := _load_tags env { m with _status := some Status.GENERATED }
  { r with
    effects :=
      Effect.print_info "Ctag generation has been completed. Loading the tag file low..".toList
        :: r.effects }

/-! ## Search -/

/-- The labels `_show_quick_pick` hands to the selection UI: one per line
that `_extract_tag` accepts. -/
def quickPickLabels (list : List Str) (showPath : Bool) : List Str :=
  list.filterMap fun line =>
    (_extract_tag line).map fun tag => tag.symbol ++ (if showPath then TAB :: tag.file else [])

/-- The method `CTAG_Manager.prototype._show_quick_pick`, up to the call of the selection UI. -/
def _show_quick_pick (list : List Str) (showPath : Bool) : List Effect :=
  [Effect.showQuickPick (quickPickLabels list showPath)]

/-- The loop of `_tag_search` over the lines still to visit, with the list
collected so far. Reading `tag.file` or `tag.symbol` when `_extract_tag`
returned `null` ends the call with a `TypeError`. -/
def _tag_search_loop (toLowerCase : Str → Str) (searchPath : Bool) (targetSymbol : Str) :
    List Str → List Str → Except JSError (List Str)
  | [], list => Except.ok list
  | line :: rest, list =>
    match _extract_tag line with
    | none => Except.error JSError.TypeError
    | some tag =>
      if searchPath then
        if indexOf (toLowerCase tag.file) targetSymbol > -1 then
          _tag_search_loop toLowerCase searchPath targetSymbol rest (list ++ [line])
        else _tag_search_loop toLowerCase searchPath targetSymbol rest list
      else if indexOf (toLowerCase tag.symbol) targetSymbol > -1 then
        _tag_search_loop toLowerCase searchPath targetSymbol rest (list ++ [line])
      else _tag_search_loop toLowerCase searchPath targetSymbol rest list

/-- Whether a non-empty query selects the path mode. -/
def searchPath (targetSymbol : Str) : Bool := targetSymbol.head? = some '@'

/-- The string the loop of `_tag_search` looks for: the query without its
leading `@`, in lower case. -/
def searchTarget (toLowerCase : Str → Str) (targetSymbol : Str) : Str :=
  toLowerCase (if searchPath targetSymbol then targetSymbol.drop 1 else targetSymbol)

/-- The list `_tag_search` collects for a non-empty query. -/
def _tag_search_list (toLowerCase : Str → Str) (tags : List Str) (targetSymbol : Str) :
    Except JSError (List Str) :=
  _tag_search_loop toLowerCase (searchPath targetSymbol) (searchTarget toLowerCase targetSymbol)
    tags []

/-- The method `CTAG_Manager.prototype._tag_search`; the query is `none` when
`undefined`. -/
def _tag_search (toLowerCase : Str → Str) (m : CTAG_Manager) (targetSymbol : Option Str) :
    Except JSError (List Effect) :=
  match targetSymbol with
  | none => Except.ok []
  | some [] => Except.ok []
  | some (c :: cs) =>
    match _tag_search_list toLowerCase m._tags (c :: cs) with
    | Except.error e => Except.error e
    | Except.ok list =>
      if list.length > 0 then Except.ok (_show_quick_pick list true)
      else
        Except.ok
          [Effect.print_error
            ("Cannot find the symbol:".toList ++ searchTarget toLowerCase (c :: cs))]

/-- The method `CTAG_Manager.prototype.search`. -/
def search (toLowerCase : Str → Str) (m : CTAG_Manager) (targetSymbol : Option Str) :
    Except JSError (List Effect) :=
  if m._status ≠ some Status.LOADED then
    Except.ok [Effect.error "Loading tag info.. Please wait for a while and try again".toList]
  else _tag_search toLowerCase m targetSymbol

/-! ## Resolution of the chosen label, navigation and outline -/

/-- The document of the active text editor, as far as the manager reads it. -/
structure Document where
  fileName : Str
  isUntitled : Bool
  deriving DecidableEq, Repr

/-- What `_goto_tag_on_doc` asks of the editor. -/
inductive Navigation where
  /-- A call `_reveal_line(activeTextEditor, lineNum)`: the tag lies in the active document. -/
  | reveal (lineNum : JSNum)
  /-- A call `openTextDocument(file)` whose document is shown and revealed at `lineNum`. -/
  | openTextDocument (file : Str) (lineNum : JSNum)
  deriving DecidableEq, Repr

/-- The method `CTAG_Manager.prototype._goto_tag_on_doc`, up to the request
made to the editor; `activeTextEditor` is `none` when no editor is active.
Reading `.document` of an absent editor, `.file` of the `null` that
`_extract_tag` returned, or joining an `undefined` root, ends the call with a
`TypeError`. -/
def _goto_tag_on_doc (env : Env) (m : CTAG_Manager) (activeTextEditor : Option Document)
    (tag_info : Str) : Except JSError Navigation :=
  match activeTextEditor, _extract_tag tag_info with
  | some document, some tag =>
    if document.fileName = tag.file then Except.ok (Navigation.reveal tag.lineNum)
    else
      match m._current_path with
      | none => Except.error JSError.TypeError
      | some root => Except.ok (Navigation.openTextDocument (env.join root tag.file) tag.lineNum)
  | _, _ => Except.error JSError.TypeError

/-- The request `_goto_tag_on_doc` makes for an accepted line when an editor
is active and the remembered root is defined. -/
def navigationOf (env : Env) (root : Str) (document : Document) (tag : TagInfo) : Navigation :=
  if document.fileName = tag.file then Navigation.reveal tag.lineNum
  else Navigation.openTextDocument (env.join root tag.file) tag.lineNum

/-- The result of the callback that resolves a chosen label: the requests
made to the editor, in order, and the exception that ended the loop, if any. -/
structure Resolution where
  navigations : List Navigation
  thrown : Option JSError
  deriving DecidableEq, Repr

/-- The loop of the callback `_show_quick_pick` gives to the selection UI,
over the entries still to visit. -/
def _show_quick_pick_loop (env : Env) (m : CTAG_Manager) (activeTextEditor : Option Document)
    (label : Str) : List Str → Resolution
  | [] => { navigations := [], thrown := none }
  | line :: rest =>
    if indexOf line label = 0 then
      match _goto_tag_on_doc env m activeTextEditor line with
      | Except.error e => { navigations := [], thrown := some e }
      | Except.ok nav =>
        { navigations := nav :: (_show_quick_pick_loop env m activeTextEditor label rest).navigations
          thrown := (_show_quick_pick_loop env m activeTextEditor label rest).thrown }
    else _show_quick_pick_loop env m activeTextEditor label rest

/-- The callback `_show_quick_pick` gives to the selection UI. The label is
`none` when the UI returns `undefined`; `indexOf` then looks for the text
`undefined`. -/
def _show_quick_pick_chosen (env : Env) (m : CTAG_Manager) (activeTextEditor : Option Document)
    (list : List Str) (label : Option Str) : Resolution :=
  _show_quick_pick_loop env m activeTextEditor (label.getD "undefined".toList) list

/-- The carriage return character. -/
def CR : Char := Char.ofNat 13

/-- The line feed character. -/
def LF : Char := Char.ofNat 10

/-- The method `s.split(sep)` for the separator made of a carriage return and a line feed. -/
def splitCRLF : Str → List Str
  | [] => [[]]
  | [c] => [[c]]
  | c :: d :: cs =>
    if c = CR ∧ d = LF then [] :: splitCRLF cs
    else
      match splitCRLF (d :: cs) with
      | [] => [[c]]
      | field :: fields => (c :: field) :: fields

/-- The options of an outline run. -/
def CTAG_OUTLINE_OPTION : Str :=
  "--fields=-aiklmnSzt+fsK --php-kinds=cidf --excmd=number -f -".toList

/-- The method `CTAG_Manager.prototype.outline`, up to the start of the external tool. -/
def outline (activeTextEditor : Option Document) : Except JSError (List Effect) :=
  match activeTextEditor with
  | none => Except.error JSError.TypeError
  | some document =>
    if document.isUntitled then Except.ok []
    else
      Except.ok
        [Effect.exec
          (CTAG_COMMAND ++ ' ' :: CTAG_OUTLINE_OPTION ++ ' ' :: DQUOTE :: document.fileName
            ++ [DQUOTE])
          none]

/-- The list of lines `outline` passes to `_show_quick_pick`: the output is
split and the last element is popped. -/
def outlineLines (stdout : Str) : List Str := (splitCRLF stdout).dropLast

/-- The output made of the given lines, each followed by a carriage return and a line feed. -/
def crlfOutput : List Str → Str
  | [] => []
  | line :: lines => line ++ CR :: LF :: crlfOutput lines

/-- The completion callback `outline` gives to `exec`. -/
def outline_done (stdout : Str) : List Effect :=
  if stdout = [] then [] else _show_quick_pick (outlineLines stdout) false

/-! ## Runs of the status machine -/

/-- The number of starts of an external process among the effects. -/
def execCount (effects : List Effect) : Nat :=
  effects.countP fun e =>
    match e with
    | Effect.exec _ _ => true
    | _ => false

/-- What can happen to a manager: a call of `generate_tag` or `load_tags`
(the workspace root of the moment is part of the environment of the call),
the completion of a generator run, a line delivered by a read, the failure
or the completion of a read. -/
inductive Event where
  | generate_tag (env : Env)
  | generate_tag_done (env : Env)
  | load_tags (env : Env)
  | line (l : Str)
  | load_error
  | load_end

/-- The state after an event. -/
def step (m : CTAG_Manager) : Event → CTAG_Manager
  | Event.generate_tag env => (generate_tag env m).state
  | Event.generate_tag_done env => (generate_tag_done env m).state
  | Event.load_tags env => (load_tags env m).state
  | Event.line l => _load_tags_line m l
  | Event.load_error => (_load_tags_error m).state
  | Event.load_end => (_load_tags_end m).state

/-- The state after a sequence of events. -/
def run (m : CTAG_Manager) (events : List Event) : CTAG_Manager :=
  events.foldl step m

/-- The test of the line callback of `_load_tags`: the line is non-empty and
does not begin with `!`. -/
def isStored (line : Str) : Bool := decide (line ≠ [] ∧ line.head? ≠ some '!')

/-- Every stored line is non-empty and does not begin with `!`. -/
def StoreClean (m : CTAG_Manager) : Prop := ∀ line ∈ m._tags, isStored line = true

/-! ## The search contract, in the words of the specification -/

/-- The query `q` is contained in `s` as a case-insensitive substring. -/
def containsIgnoreCase (toLowerCase : Str → Str) (s q : Str) : Bool :=
  decide (toLowerCase q <:+: toLowerCase s)

/-- Symbol mode: the lines of the store, in store order, whose parsed symbol
contains the query as a case-insensitive substring. -/
def symbolMatches (toLowerCase : Str → Str) (tags : List Str) (q : Str) : List Str :=
  tags.filter fun line =>
    match _extract_tag line with
    | some tag => containsIgnoreCase toLowerCase tag.symbol q
    | none => false

/-- Path mode: the lines of the store, in store order, whose parsed file path
contains the query as a case-insensitive substring. -/
def pathMatches (toLowerCase : Str → Str) (tags : List Str) (q : Str) : List Str :=
  tags.filter fun line =>
    match _extract_tag line with
    | some tag => containsIgnoreCase toLowerCase tag.file q
    | none => false

/-! ## Sample data -/

/-- The line `sum<TAB>math.php<TAB>5;"<TAB>f`. -/
def sumLine : Str := tagLine ["sum", "math.php", "5;" ++ String.mk [DQUOTE], "f"]

/-- The line `foo<TAB>A.php<TAB>10;"<TAB>f`. -/
def fooLine : Str := tagLine ["foo", "A.php", "10;" ++ String.mk [DQUOTE], "f"]

/-- The line `Foo2<TAB>B.php<TAB>2;"<TAB>f`. -/
def foo2Line : Str := tagLine ["Foo2", "B.php", "2;" ++ String.mk [DQUOTE], "f"]

/-- The line `a<TAB>b.php<TAB>x;"<TAB>f`, whose third field holds no number. -/
def noNumberLine : Str := tagLine ["a", "b.php", "x;" ++ String.mk [DQUOTE], "f"]

/-- A line without any tab. -/
def noTabLine : Str := "abc".toList

/-- A line whose line number is `2 ^ 53 + 1`, in decimal. -/
def hugeNumberLine : Str :=
  "sum".toList ++ TAB :: ("math.php".toList ++ TAB ::
    (Nat.toDigits 10 9007199254740993 ++ MARK ++ TAB :: ("f".toList ++ furtherFields [])))

/-- A workspace rooted at `/ws` whose tag file exists; `sizeOk` is the answer
of the size test. -/
def sampleEnv (sizeOk : Bool) : Env where
  rootPath := some "/ws".toList
  join := fun a b => a ++ '/' :: b
  file_exists := fun _ => true
  test_file_size := fun _ _ => sizeOk

/-- A manager of the workspace `/ws` with the given status and store. -/
def sampleManager (status : Status) (tags : List Str) : CTAG_Manager where
  _ctags_tagpath := "/ws/ctags.tmp".toList
  _current_path := some "/ws".toList
  _status := some status
  _tags := tags

/-- A manager that remembers the root `/old`, with status `LOADED` and the
given store. -/
def oldRootManager (tags : List Str) : CTAG_Manager where
  _ctags_tagpath := "/old/ctags.tmp".toList
  _current_path := some "/old".toList
  _status := some Status.LOADED
  _tags := tags

/-- A workspace rooted at `/ws` that has no tag file. -/
def noFileEnv : Env where
  rootPath := some "/ws".toList
  join := fun a b => a ++ '/' :: b
  file_exists := fun _ => false
  test_file_size := fun _ _ => true

/-- An active editor on the saved file `/ws/index.php`. -/
def sampleEditor : Option Document :=
  some { fileName := "/ws/index.php".toList, isUntitled := false }

/-- The line `foo<TAB>a.php<TAB>1;"<TAB>f`. -/
def fooALine : Str := tagLine ["foo", "a.php", "1;" ++ String.mk [DQUOTE], "f"]

/-- The line `foobar<TAB>b.php<TAB>2;"<TAB>f`. -/
def foobarLine : Str := tagLine ["foobar", "b.php", "2;" ++ String.mk [DQUOTE], "f"]

/-! ## Properties of the string and number primitives -/

theorem split_ne_nil (sep : Char) (s : Str) : split sep s ≠ [] := by
  induction s with
  | nil => simp [split]
  | cons c cs ih =>
    by_cases hc : c = sep
    · simp [split, hc]
    · cases hs : split sep cs with
      | nil => exact absurd hs ih
      | cons field fields => simp [split, hc, hs]

theorem length_split (sep : Char) (s : Str) :
    (split sep s).length = s.count sep + 1 := by
  induction s with
  | nil => simp [split]
  | cons c cs ih =>
    by_cases hc : c = sep
    · subst hc
      simp [split, ih]
    · cases hs : split sep cs with
      | nil => exact absurd hs (split_ne_nil sep cs)
      | cons field fields =>
        rw [hs] at ih
        simp only [List.length_cons] at ih
        simp [split, hc, hs, List.count_cons, ih]

theorem split_of_not_mem (sep : Char) (s : Str) (h : sep ∉ s) : split sep s = [s] := by
  induction s with
  | nil => simp [split]
  | cons c cs ih =>
    have hc : c ≠ sep := fun e => h (by simp [e])
    have hcs : sep ∉ cs := fun e => h (List.mem_cons_of_mem _ e)
    simp [split, hc, ih hcs]

theorem split_append (sep : Char) (s rest : Str) (h : sep ∉ s) :
    split sep (s ++ sep :: rest) = s :: split sep rest := by
  induction s with
  | nil => simp [split]
  | cons c cs ih =>
    have hc : c ≠ sep := fun e => h (by simp [e])
    have hcs : sep ∉ cs := fun e => h (List.mem_cons_of_mem _ e)
    simp [split, hc, ih hcs]

theorem removeFirst_append_self (p : Char) (ps s : Str) (h : p ∉ s) :
    removeFirst (p :: ps) (s ++ p :: ps) = s := by
  induction s with
  | nil => simp [removeFirst]
  | cons c cs ih =>
    have hc : p ≠ c := fun e => h (by simp [e])
    have hcs : p ∉ cs := fun e => h (List.mem_cons_of_mem _ e)
    simp [removeFirst, hc, ih hcs]

theorem roundToDouble_exact (z : Int) (h : z.natAbs ≤ 2 ^ 53) :
    roundToDouble z = JSNum.fin z := by
  unfold roundToDouble roundNat
  rw [if_pos h]
  by_cases hz : z < 0
  · simp only [hz, if_true]
    congr 1
    omega
  · simp only [hz, if_false]
    congr 1
    omega

theorem not_isWhiteSpace_of_isDigit (c : Char) (h : isDigit c = true) :
    isWhiteSpace c = false := by
  unfold isDigit at h
  unfold isWhiteSpace
  generalize c.toNat = n at h
  have h1 : 48 ≤ n ∧ n ≤ 57 := of_decide_eq_true h
  obtain ⟨h48, h57⟩ := h1
  interval_cases n <;> rfl

theorem parseInt_digits (ds : Str) (hne : ds ≠ []) (hd : ∀ c ∈ ds, isDigit c = true) :
    parseInt ds = roundToDouble (digitsValue 0 ds) := by
  cases ds with
  | nil => exact absurd rfl hne
  | cons c cs =>
    have hc : isDigit c = true := hd c (by simp)
    have hw : isWhiteSpace c = false := not_isWhiteSpace_of_isDigit c hc
    have hminus : c ≠ '-' := by
      intro e
      rw [e] at hc
      exact absurd hc (by decide)
    have hplus : c ≠ '+' := by
      intro e
      rw [e] at hc
      exact absurd hc (by decide)
    have htake : List.takeWhile isDigit (c :: cs) = c :: cs :=
      List.takeWhile_eq_self_iff.mpr hd
    simp [parseInt, List.dropWhile, hw, hminus, hplus, htake]

theorem digitChar_toNat (d : Nat) (h : d < 10) : (Nat.digitChar d).toNat = 48 + d := by
  interval_cases d <;> rfl

theorem isDigit_digitChar (d : Nat) (h : d < 10) : isDigit (Nat.digitChar d) = true := by
  interval_cases d <;> rfl

theorem toDigitsCore_isDigit (fuel : Nat) :
    ∀ (n : Nat) (ds : Str), (∀ c ∈ ds, isDigit c = true) →
      ∀ c ∈ Nat.toDigitsCore 10 fuel n ds, isDigit c = true := by
  induction fuel with
  | zero => intro n ds hds; simpa [Nat.toDigitsCore] using hds
  | succ fuel ih =>
    intro n ds hds
    have hd : isDigit (Nat.digitChar (n % 10)) = true :=
      isDigit_digitChar _ (Nat.mod_lt _ (by norm_num))
    have hds1 : ∀ c ∈ Nat.digitChar (n % 10) :: ds, isDigit c = true := by
      intro c hc
      rcases List.mem_cons.mp hc with e | e
      · rw [e]; exact hd
      · exact hds c e
    simp only [Nat.toDigitsCore]
    split_ifs with h0
    · exact hds1
    · exact ih _ _ hds1

theorem toDigitsCore_ne_nil (fuel : Nat) :
    ∀ (n : Nat) (ds : Str), n < fuel → Nat.toDigitsCore 10 fuel n ds ≠ [] := by
  induction fuel with
  | zero => intro n ds h; omega
  | succ fuel ih =>
    intro n ds h
    simp only [Nat.toDigitsCore]
    split_ifs with h0
    · simp
    · have : n / 10 < fuel := by omega
      exact ih _ _ this

theorem digitsValue_cons (acc : Nat) (c : Char) (cs : Str) :
    digitsValue acc (c :: cs) = digitsValue (acc * 10 + (c.toNat - 48)) cs := rfl

theorem digitsValue_toDigitsCore (fuel : Nat) :
    ∀ (n : Nat) (ds : Str), n < fuel →
      digitsValue 0 (Nat.toDigitsCore 10 fuel n ds) = digitsValue n ds := by
  induction fuel with
  | zero => intro n ds h; omega
  | succ fuel ih =>
    intro n ds h
    have hd : (Nat.digitChar (n % 10)).toNat - 48 = n % 10 := by
      rw [digitChar_toNat _ (Nat.mod_lt _ (by norm_num))]; omega
    simp only [Nat.toDigitsCore]
    split_ifs with h0
    · have e : 0 * 10 + n % 10 = n := by omega
      rw [digitsValue_cons, hd, e]
    · have hlt : n / 10 < fuel := by omega
      have e : n / 10 * 10 + n % 10 = n := by omega
      rw [ih _ _ hlt, digitsValue_cons, hd, e]

theorem toDigits_ne_nil (N : Nat) : Nat.toDigits 10 N ≠ [] := by
  unfold Nat.toDigits
  exact toDigitsCore_ne_nil (N + 1) N [] (Nat.lt_succ_self N)

theorem toDigits_isDigit (N : Nat) : ∀ c ∈ Nat.toDigits 10 N, isDigit c = true := by
  unfold Nat.toDigits
  exact toDigitsCore_isDigit (N + 1) N [] (fun c hc => absurd hc (List.not_mem_nil c))

theorem digitsValue_toDigits (N : Nat) : digitsValue 0 (Nat.toDigits 10 N) = N := by
  unfold Nat.toDigits
  rw [digitsValue_toDigitsCore (N + 1) N [] (Nat.lt_succ_self N)]
  rfl

/-- On the decimal representation of `N`, `parseInt` reads the Number value of `N`. -/
theorem parseInt_toDigits (N : Nat) :
    parseInt (Nat.toDigits 10 N) = roundToDouble (N : Int) := by
  rw [parseInt_digits _ (toDigits_ne_nil N) (toDigits_isDigit N), digitsValue_toDigits]

theorem semicolon_not_mem_toDigits (N : Nat) : ';' ∉ Nat.toDigits 10 N := by
  intro h
  have h1 : isDigit ';' = true := toDigits_isDigit N ';' h
  exact absurd h1 (by decide)

theorem tab_not_mem_toDigits (N : Nat) : TAB ∉ Nat.toDigits 10 N := by
  intro h
  have h1 : isDigit TAB = true := toDigits_isDigit N TAB h
  exact absurd h1 (by decide)


theorem split_fourth (k : Str) (extra : List Str) (hk : TAB ∉ k) :
    ∃ rest, split TAB (k ++ furtherFields extra) = k :: rest := by
  cases extra with
  | nil =>
    refine ⟨[], ?_⟩
    simp [furtherFields, split_of_not_mem TAB k hk]
  | cons e es =>
    refine ⟨split TAB (e ++ furtherFields es), ?_⟩
    simp only [furtherFields]
    exact split_append TAB k _ hk

/-! ## The tag record parser -/

/-- C1 (as amended): a line `s<TAB>f<TAB>n;"<TAB>k` followed by any further
fields, where `s`, `f`, `k` hold no tab and `n` is the decimal representation
of a natural number `N ≤ 2 ^ 53`, is parsed by `_extract_tag` into the record
with symbol `s`, file `f`, type `k` and lineNum `N - 1`. -/
theorem extract_tag_well_formed (s f k : Str) (extra : List Str) (N : Nat)
    (hs : TAB ∉ s) (hf : TAB ∉ f) (hk : TAB ∉ k) (hN : N ≤ 2 ^ 53) :
    _extract_tag
        (s ++ TAB :: (f ++ TAB :: (Nat.toDigits 10 N ++ MARK ++ TAB :: (k ++ furtherFields extra))))
      = some { symbol := s, file := f, lineNum := JSNum.fin ((N : Int) - 1), type := k } := by
  obtain ⟨rest, hrest⟩ := split_fourth k extra hk
  have hmark : TAB ∉ Nat.toDigits 10 N ++ MARK := by
    intro h
    rcases List.mem_append.mp h with h1 | h1
    · exact tab_not_mem_toDigits N h1
    · exact absurd h1 (by decide)
  have hremove : removeFirst MARK (Nat.toDigits 10 N ++ MARK) = Nat.toDigits 10 N :=
    removeFirst_append_self ';' [DQUOTE] _ (semicolon_not_mem_toDigits N)
  have hnum : (parseInt (Nat.toDigits 10 N)).sub1 = JSNum.fin ((N : Int) - 1) := by
    rw [parseInt_toDigits, roundToDouble_exact _ (by omega)]
    exact roundToDouble_exact _ (by omega)
  unfold _extract_tag
  rw [split_append TAB s _ hs, split_append TAB f _ hf, split_append TAB _ _ hmark, hrest]
  simp only [hremove, hnum]

/-- Witness of `extract_tag_well_formed`: the line `sum<TAB>math.php<TAB>5;"<TAB>f`
gives symbol `sum`, file `math.php`, lineNum `4`, type `f`. -/
theorem extract_tag_well_formed_witness :
    _extract_tag
        ("sum".toList ++ TAB :: ("math.php".toList ++ TAB ::
          (Nat.toDigits 10 5 ++ MARK ++ TAB :: ("f".toList ++ furtherFields []))))
      = some { symbol := "sum".toList, file := "math.php".toList,
               lineNum := JSNum.fin ((5 : Nat) - 1 : Int), type := "f".toList } :=
  extract_tag_well_formed "sum".toList "math.php".toList "f".toList [] 5
    (by decide) (by decide) (by decide) (by decide)

/-- C1, counterexample: for `N = 2 ^ 53 + 1 = 9007199254740993` the line
`sum<TAB>math.php<TAB>9007199254740993;"<TAB>f` is parsed with lineNum
`9007199254740991`, which is `N - 2`: `parseInt` rounds `N` to the double
`2 ^ 53` before one is subtracted. -/
theorem extract_tag_lineNum_rounded :
    _extract_tag hugeNumberLine
        = some { symbol := "sum".toList, file := "math.php".toList,
                 lineNum := JSNum.fin 9007199254740991, type := "f".toList }
      ∧ _extract_tag hugeNumberLine
        ≠ some { symbol := "sum".toList, file := "math.php".toList,
                 lineNum := JSNum.fin ((9007199254740993 : Nat) - 1 : Int), type := "f".toList } := by
  decide

/-- C2: a string with fewer than three tab characters has fewer than four
tab-separated fields, and `_extract_tag` returns `null` for it. -/
theorem extract_tag_too_few_fields (line : Str) (h : line.count TAB < 3) :
    (split TAB line).length < 4 ∧ _extract_tag line = none := by
  have hlen : (split TAB line).length < 4 := by
    rw [length_split]; omega
  refine ⟨hlen, ?_⟩
  unfold _extract_tag
  rcases hsp : split TAB line with _ | ⟨f0, _ | ⟨f1, _ | ⟨f2, _ | ⟨f3, rest⟩⟩⟩⟩
  · rfl
  · rfl
  · rfl
  · rfl
  · rw [hsp] at hlen
    simp only [List.length_cons] at hlen
    omega

/-- Witness of `extract_tag_too_few_fields`: the empty string. -/
theorem extract_tag_too_few_fields_witness :
    (split TAB []).length < 4 ∧ _extract_tag [] = none :=
  extract_tag_too_few_fields [] (by decide)

/-- C3 (as amended): for a line with at least four tab-separated fields
whose third field, once the first `;"` is removed, does not parse as an
integer, `_extract_tag` returns a record all the same: its lineNum is `NaN`,
its symbol, file and type are the first, second and fourth field. -/
theorem extract_tag_no_number (line f0 f1 f2 f3 : Str) (rest : List Str)
    (hfields : split TAB line = f0 :: f1 :: f2 :: f3 :: rest)
    (hnan : parseInt (removeFirst MARK f2) = JSNum.NaN) :
    _extract_tag line
      = some { symbol := f0, file := f1, lineNum := JSNum.NaN, type := f3 } := by
  unfold _extract_tag
  rw [hfields]
  simp only [hnan, JSNum.sub1]

/-- Witness of `extract_tag_no_number`: the line `a<TAB>b.php<TAB>x;"<TAB>f`. -/
theorem extract_tag_no_number_witness :
    _extract_tag noNumberLine
      = some { symbol := "a".toList, file := "b.php".toList, lineNum := JSNum.NaN,
               type := "f".toList } :=
  extract_tag_no_number noNumberLine "a".toList "b.php".toList ("x".toList ++ MARK) "f".toList []
    (by decide) (by decide)

/-- C3, counterexample: the line `a<TAB>b.php<TAB>x;"<TAB>f` has four fields,
its third field without `;"` is `x` and parses to `NaN`, and `_extract_tag`
does not return `null` for it. -/
theorem extract_tag_no_number_not_null :
    split TAB noNumberLine = ["a".toList, "b.php".toList, "x".toList ++ MARK, "f".toList]
      ∧ parseInt (removeFirst MARK ("x".toList ++ MARK)) = JSNum.NaN
      ∧ _extract_tag noNumberLine ≠ none := by
  decide

/-! ## Search -/

theorem indexOfFrom_gt_iff (needle : Str) :
    ∀ (s : Str) (i : Nat), indexOfFrom needle s i > -1 ↔ needle <:+: s := by
  intro s
  induction s with
  | nil =>
    intro i
    by_cases h : needle.isPrefixOf [] = true
    · have hp : needle <+: [] := List.isPrefixOf_iff_prefix.mp h
      simp only [indexOfFrom, h, if_true]
      exact ⟨fun _ => hp.isInfix, fun _ => by omega⟩
    · have hp : ¬ needle <+: [] := fun e => h (List.isPrefixOf_iff_prefix.mpr e)
      simp only [indexOfFrom, h]
      constructor
      · intro h1
        simp at h1
      · intro h1
        exact absurd (List.prefix_nil.mpr (List.infix_nil.mp h1)) hp
  | cons c cs ih =>
    intro i
    by_cases h : needle.isPrefixOf (c :: cs) = true
    · have hp : needle <+: c :: cs := List.isPrefixOf_iff_prefix.mp h
      simp only [indexOfFrom, h, if_true]
      exact ⟨fun _ => hp.isInfix, fun _ => by omega⟩
    · have hp : ¬ needle <+: c :: cs := fun e => h (List.isPrefixOf_iff_prefix.mpr e)
      simp only [indexOfFrom, h]
      rw [List.infix_cons_iff]
      constructor
      · intro h1
        exact Or.inr ((ih (i + 1)).mp h1)
      · intro h1
        rcases h1 with h1 | h1
        · exact absurd h1 hp
        · exact (ih (i + 1)).mpr h1

/-- The test `s.indexOf(needle) > -1` holds exactly when `needle` occurs in `s`. -/
theorem indexOf_gt_iff (s needle : Str) : indexOf s needle > -1 ↔ needle <:+: s :=
  indexOfFrom_gt_iff needle s 0

/-- On a store whose lines are all accepted by `_extract_tag`, the loop of
`_tag_search` appends to the list, in store order, the lines whose file path
(path mode) or symbol (symbol mode) contains the target in lower case. -/
theorem tag_search_loop_accepted (toLowerCase : Str → Str) (sp : Bool) (t : Str) :
    ∀ (tags list : List Str), (∀ line ∈ tags, _extract_tag line ≠ none) →
      _tag_search_loop toLowerCase sp t tags list
        = Except.ok (list ++ tags.filter fun line =>
            match _extract_tag line with
            | some tag => decide (t <:+: toLowerCase (if sp then tag.file else tag.symbol))
            | none => false) := by
  intro tags
  induction tags with
  | nil => intro list _; simp [_tag_search_loop]
  | cons line rest ih =>
    intro list hall
    have hrest : ∀ l ∈ rest, _extract_tag l ≠ none :=
      fun l hl => hall l (List.mem_cons_of_mem _ hl)
    cases htag : _extract_tag line with
    | none => exact absurd htag (hall line (List.mem_cons_self _ _))
    | some tag =>
      cases sp with
      | true =>
        by_cases hm : indexOf (toLowerCase tag.file) t > -1
        · have hin : t <:+: toLowerCase tag.file := (indexOf_gt_iff _ _).mp hm
          simp [_tag_search_loop, htag, hm, hin, ih _ hrest, List.filter_cons]
        · have hin : ¬ t <:+: toLowerCase tag.file := fun e => hm ((indexOf_gt_iff _ _).mpr e)
          simp [_tag_search_loop, htag, hm, hin, ih _ hrest, List.filter_cons]
      | false =>
        by_cases hm : indexOf (toLowerCase tag.symbol) t > -1
        · have hin : t <:+: toLowerCase tag.symbol := (indexOf_gt_iff _ _).mp hm
          simp [_tag_search_loop, htag, hm, hin, ih _ hrest, List.filter_cons]
        · have hin : ¬ t <:+: toLowerCase tag.symbol := fun e => hm ((indexOf_gt_iff _ _).mpr e)
          simp [_tag_search_loop, htag, hm, hin, ih _ hrest, List.filter_cons]

/-- On a store that holds a line `_extract_tag` rejects, the loop of
`_tag_search` ends with a `TypeError`. -/
theorem tag_search_loop_rejected (toLowerCase : Str → Str) (sp : Bool) (t : Str) :
    ∀ (tags list : List Str), (∃ line ∈ tags, _extract_tag line = none) →
      _tag_search_loop toLowerCase sp t tags list = Except.error JSError.TypeError := by
  intro tags
  induction tags with
  | nil =>
    intro list h
    obtain ⟨line, hmem, _⟩ := h
    exact absurd hmem (List.not_mem_nil line)
  | cons line rest ih =>
    intro list h
    cases htag : _extract_tag line with
    | none => simp [_tag_search_loop, htag]
    | some tag =>
      have hrest : ∃ l ∈ rest, _extract_tag l = none := by
        obtain ⟨l, hmem, hl⟩ := h
        rcases List.mem_cons.mp hmem with e | e
        · rw [e, htag] at hl
          exact absurd hl (by simp)
        · exact ⟨l, e, hl⟩
      simp only [_tag_search_loop, htag]
      split_ifs <;> exact ih _ hrest

/-- Symbol mode on a store of accepted lines: for a non-empty query that
does not begin with `@`, the list `_tag_search` collects is the list of the
lines whose parsed symbol contains the query as a case-insensitive substring,
in store order. -/
theorem tag_search_list_symbol_mode (toLowerCase : Str → Str) (tags : List Str) (q : Str)
    (hat : q.head? ≠ some '@') (hall : ∀ line ∈ tags, _extract_tag line ≠ none) :
    _tag_search_list toLowerCase tags q = Except.ok (symbolMatches toLowerCase tags q) := by
  have hsp : searchPath q = false := by simp [searchPath, hat]
  unfold _tag_search_list searchTarget symbolMatches containsIgnoreCase
  rw [hsp, tag_search_loop_accepted toLowerCase false _ tags [] hall]
  simp

/-- Path mode on a store of accepted lines: for the query `@` followed by
`q`, the list `_tag_search` collects is the list of the lines whose parsed
file path contains `q` as a case-insensitive substring, in store order. -/
theorem tag_search_list_path_mode (toLowerCase : Str → Str) (tags : List Str) (q : Str)
    (hall : ∀ line ∈ tags, _extract_tag line ≠ none) :
    _tag_search_list toLowerCase tags ('@' :: q) = Except.ok (pathMatches toLowerCase tags q) := by
  have hsp : searchPath ('@' :: q) = true := by simp [searchPath]
  unfold _tag_search_list searchTarget pathMatches containsIgnoreCase
  rw [hsp, tag_search_loop_accepted toLowerCase true _ tags [] hall]
  simp

/-- The witness of the specification in symbol mode: the query `foo` against
the store of `foo` and `Foo2` collects both lines, in that order. -/
theorem tag_search_list_foo :
    _tag_search_list asciiLower [fooLine, foo2Line] "foo".toList
      = Except.ok [fooLine, foo2Line] := by
  decide

/-- The witness of the specification in path mode: the query `@b.php`
against the store of `foo` and `Foo2` collects only the second line. -/
theorem tag_search_list_at_b_php :
    _tag_search_list asciiLower [fooLine, foo2Line] "@b.php".toList
      = Except.ok [foo2Line] := by
  decide

/-- C4, at the failing input: with the store `[foo<TAB>A.php<TAB>10;"<TAB>f, abc]`
and the query `foo`, the lines whose parsed symbol contains the query are
`[foo<TAB>A.php<TAB>10;"<TAB>f]`, but `_tag_search` collects no list: it ends with a
`TypeError` at the line `abc`, for which `_extract_tag` returned `null`. -/
theorem tag_search_symbol_mode_throws :
    symbolMatches asciiLower [fooLine, noTabLine] "foo".toList = [fooLine]
      ∧ _tag_search_list asciiLower [fooLine, noTabLine] "foo".toList
          = Except.error JSError.TypeError := by
  decide

/-- C5, at the failing input: with the store
`[foo<TAB>A.php<TAB>10;"<TAB>f, abc, Foo2<TAB>B.php<TAB>2;"<TAB>f]` and the query `@b.php`,
the lines whose parsed file path contains `b.php` are `[Foo2<TAB>B.php<TAB>2;"<TAB>f]`,
but `_tag_search` collects no list: it ends with a `TypeError` at the line `abc`. -/
theorem tag_search_path_mode_throws :
    pathMatches asciiLower [fooLine, noTabLine, foo2Line] "b.php".toList = [foo2Line]
      ∧ _tag_search_list asciiLower [fooLine, noTabLine, foo2Line] "@b.php".toList
          = Except.error JSError.TypeError := by
  decide

/-- C6, the defect: for every store that holds a line `_extract_tag` rejects
and every non-empty query, in either mode, `_tag_search` does not complete:
it ends with a `TypeError`. -/
theorem tag_search_throws_on_rejected_line (toLowerCase : Str → Str) (m : CTAG_Manager)
    (q line : Str) (hq : q ≠ []) (hmem : line ∈ m._tags) (hrej : _extract_tag line = none) :
    _tag_search toLowerCase m (some q) = Except.error JSError.TypeError := by
  cases q with
  | nil => exact absurd rfl hq
  | cons c cs =>
    have hloop : _tag_search_list toLowerCase m._tags (c :: cs) = Except.error JSError.TypeError :=
      tag_search_loop_rejected toLowerCase _ _ m._tags [] ⟨line, hmem, hrej⟩
    simp only [_tag_search, hloop]

/-- Witness of `tag_search_throws_on_rejected_line`: a loaded store whose
only line is `abc`, searched for `a`. -/
theorem tag_search_throws_on_rejected_line_witness :
    _tag_search asciiLower (sampleManager Status.LOADED [noTabLine]) (some "a".toList)
      = Except.error JSError.TypeError :=
  tag_search_throws_on_rejected_line asciiLower (sampleManager Status.LOADED [noTabLine])
    "a".toList noTabLine (by decide) (by decide) (by decide)

/-- A store with a rejected line is reachable: a load that delivers the single
line `abc` and completes leaves the status `LOADED` and the store `[abc]`,
and the search for `a` that follows ends with a `TypeError`. -/
theorem search_after_loading_rejected_line :
    (_load_tags_end (deliver (_load_tags (sampleEnv true) (sampleManager Status.NONE [])).state
        [noTabLine])).state = sampleManager Status.LOADED [noTabLine]
      ∧ search asciiLower
          (_load_tags_end (deliver (_load_tags (sampleEnv true) (sampleManager Status.NONE [])).state
            [noTabLine])).state (some "a".toList)
        = Except.error JSError.TypeError := by
  decide

/-- C7: for the empty query and for an absent query, on every store,
`_tag_search` returns at once: nothing is handed to the selection UI and no
notification is emitted. -/
theorem tag_search_empty_query (toLowerCase : Str → Str) (m : CTAG_Manager) :
    _tag_search toLowerCase m (some []) = Except.ok []
      ∧ _tag_search toLowerCase m none = Except.ok [] :=
  ⟨rfl, rfl⟩

/-! ## The status machine -/

theorem reset_if_need_same_root (env : Env) (m : CTAG_Manager)
    (hroot : m._current_path = env.rootPath) :
    _reset_if_need env m = { state := m, effects := [], thrown := none } := by
  simp [_reset_if_need, hroot]

/-- The line callback keeps the lines that are non-empty and do not begin
with `!`, behind the lines already stored, and touches nothing else. -/
theorem deliver_eq (lines : List Str) :
    ∀ m : CTAG_Manager,
      deliver m lines
        = { m with _tags := m._tags ++ lines.filter fun l => decide (l ≠ [] ∧ l.head? ≠ some '!') } := by
  induction lines with
  | nil => intro m; simp [deliver]
  | cons l ls ih =>
    intro m
    have hstep : deliver m (l :: ls) = deliver (_load_tags_line m l) ls := rfl
    rw [hstep, ih]
    by_cases hl : l ≠ [] ∧ l.head? ≠ some '!'
    · simp [_load_tags_line, hl, List.filter_cons]
    · simp [_load_tags_line, hl, List.filter_cons]

/-- C8, the defect: when a load is started (status other than `LOADING`) and
the size test refuses the tag file, `_load_tags` reports the refusal, starts
no read and leaves the store as it was, but the status it leaves is
`LOADING`, not `NONE`. -/
theorem load_tags_too_large (env : Env) (m : CTAG_Manager)
    (hst : m._status ≠ some Status.LOADING)
    (hsize : env.test_file_size m._ctags_tagpath LARGE_FILE_SIZE_BYTE = false) :
    (_load_tags env m).state._status = some Status.LOADING
      ∧ (_load_tags env m).state._tags = m._tags
      ∧ (_load_tags env m).effects = [Effect.print_error largeFileMessage]
      ∧ (_load_tags env m).thrown = none := by
  simp [_load_tags, hst, hsize]

/-- Witness of `load_tags_too_large`: a manager with status `NONE` and an
empty store, and a tag file the size test refuses. -/
theorem load_tags_too_large_witness :
    (_load_tags (sampleEnv false) (sampleManager Status.NONE [])).state._status
        = some Status.LOADING
      ∧ (_load_tags (sampleEnv false) (sampleManager Status.NONE [])).state._tags = []
      ∧ (_load_tags (sampleEnv false) (sampleManager Status.NONE [])).effects
        = [Effect.print_error largeFileMessage]
      ∧ (_load_tags (sampleEnv false) (sampleManager Status.NONE [])).thrown = none :=
  load_tags_too_large (sampleEnv false) (sampleManager Status.NONE []) (by decide) (by decide)

/-- C9 (as amended): when a started load delivers the lines `lines` and then
reports a read failure, the state after the failure callback has status
`NONE`, and its store is the store before the load followed by the delivered
lines that are non-empty and do not begin with `!`: the partial store is
kept. -/
theorem failed_load_keeps_partial_store (env : Env) (m : CTAG_Manager) (lines : List Str)
    (hst : m._status ≠ some Status.LOADING)
    (hsize : env.test_file_size m._ctags_tagpath LARGE_FILE_SIZE_BYTE = true) :
    (_load_tags env m).effects = [Effect.parse_file_line m._ctags_tagpath]
      ∧ (_load_tags_error (deliver (_load_tags env m).state lines)).state._status
          = some Status.NONE
      ∧ (_load_tags_error (deliver (_load_tags env m).state lines)).state._tags
          = m._tags ++ lines.filter fun l => decide (l ≠ [] ∧ l.head? ≠ some '!') := by
  rw [deliver_eq]
  simp [_load_tags, hst, hsize, _load_tags_error]

/-- Witness of `failed_load_keeps_partial_store`: a load into an empty store
that delivers `sum<TAB>math.php<TAB>5;"<TAB>f` and a comment line before it fails. -/
theorem failed_load_keeps_partial_store_witness :
    (_load_tags (sampleEnv true) (sampleManager Status.NONE [])).effects
        = [Effect.parse_file_line (sampleManager Status.NONE [])._ctags_tagpath]
      ∧ (_load_tags_error (deliver (_load_tags (sampleEnv true) (sampleManager Status.NONE [])).state
            [sumLine, "!comment".toList])).state._status
          = some Status.NONE
      ∧ (_load_tags_error (deliver (_load_tags (sampleEnv true) (sampleManager Status.NONE [])).state
            [sumLine, "!comment".toList])).state._tags
          = (sampleManager Status.NONE [])._tags
              ++ [sumLine, "!comment".toList].filter fun l => decide (l ≠ [] ∧ l.head? ≠ some '!') :=
  failed_load_keeps_partial_store (sampleEnv true) (sampleManager Status.NONE [])
    [sumLine, "!comment".toList] (by decide) (by decide)

/-- C9, counterexample: a load into an empty store delivers the line
`sum<TAB>math.php<TAB>5;"<TAB>f` and then fails; after the failure callback the status
is `NONE` and the store still holds that line. -/
theorem failed_load_line_still_stored :
    (_load_tags_error (deliver (_load_tags (sampleEnv true) (sampleManager Status.NONE [])).state
          [sumLine])).state._status = some Status.NONE
      ∧ sumLine ∈
          (_load_tags_error (deliver (_load_tags (sampleEnv true) (sampleManager Status.NONE [])).state
            [sumLine])).state._tags := by
  decide

/-- C10, the defect: in the state a refused load (tag file over the size
cap) leaves behind, with the workspace root unchanged, the next
`generate_tag` call is a no-op that starts no generator, and the next
`load_tags` call on an existing tag file, whatever its size by then, is a
no-op that starts no read: the status is still `LOADING`. -/
theorem no_retry_after_too_large (env env1 : Env) (m : CTAG_Manager)
    (hst : m._status ≠ some Status.LOADING)
    (hsize : env.test_file_size m._ctags_tagpath LARGE_FILE_SIZE_BYTE = false)
    (hroot : m._current_path = env1.rootPath)
    (hexists : env1.file_exists m._ctags_tagpath = true) :
    generate_tag env1 (_load_tags env m).state
        = { state := (_load_tags env m).state, effects := [], thrown := none }
      ∧ load_tags env1 (_load_tags env m).state
        = { state := (_load_tags env m).state, effects := [], thrown := none } := by
  have hstate : (_load_tags env m).state = { m with _status := some Status.LOADING } := by
    simp [_load_tags, hst, hsize]
  rw [hstate]
  have hreset := reset_if_need_same_root env1 { m with _status := some Status.LOADING } hroot
  constructor
  · simp [generate_tag, hreset]
  · simp [load_tags, _get_tagpath, hreset, hexists, _load_tags]

/-- Witness of `no_retry_after_too_large`: the load of a manager with status
`NONE` is refused, then the tag file is replaced by one that passes the size
test. -/
theorem no_retry_after_too_large_witness :
    generate_tag (sampleEnv true) (_load_tags (sampleEnv false) (sampleManager Status.NONE [])).state
        = { state := (_load_tags (sampleEnv false) (sampleManager Status.NONE [])).state,
            effects := [], thrown := none }
      ∧ load_tags (sampleEnv true) (_load_tags (sampleEnv false) (sampleManager Status.NONE [])).state
        = { state := (_load_tags (sampleEnv false) (sampleManager Status.NONE [])).state,
            effects := [], thrown := none } :=
  no_retry_after_too_large (sampleEnv false) (sampleEnv true) (sampleManager Status.NONE [])
    (by decide) (by decide) (by decide) (by decide)

/-- After a read failure, with the workspace root unchanged, a retry does
start: `generate_tag` starts the generator, and `load_tags` on an existing
tag file that passes the size test starts a read. -/
theorem retry_after_read_failure (env : Env) (m : CTAG_Manager)
    (hroot : m._current_path = env.rootPath)
    (hexists : env.file_exists m._ctags_tagpath = true)
    (hsize : env.test_file_size m._ctags_tagpath LARGE_FILE_SIZE_BYTE = true) :
    (generate_tag env (_load_tags_error m).state).effects
        = [Effect.print_info "Generating ctag file...".toList,
           Effect.exec generateCommand m._current_path]
      ∧ (load_tags env (_load_tags_error m).state).effects
        = [Effect.parse_file_line m._ctags_tagpath] := by
  have hreset := reset_if_need_same_root env { m with _status := some Status.NONE } hroot
  constructor
  · simp [generate_tag, _load_tags_error, hreset]
  · simp [load_tags, _get_tagpath, _load_tags_error, hreset, hexists, hsize, _load_tags]

/-! ## Gating of generation and load -/

/-- C11: with the workspace root unchanged, a second `generate_tag` call
made before the completion callback of the first is a no-op (state, hence
status and store, unchanged; no effect, no exception); `generate_tag` is a
no-op whenever the status is `GENERATING` or `LOADING`; and when the first
call does start a generation (status neither `GENERATING` nor `LOADING`) the
two calls together start the external generator exactly once. -/
theorem generate_tag_twice (env env1 : Env) (m : CTAG_Manager)
    (hroot : m._current_path = env.rootPath) (hroot1 : env1.rootPath = env.rootPath) :
    generate_tag env1 (generate_tag env m).state
        = { state := (generate_tag env m).state, effects := [], thrown := none }
      ∧ ((m._status = some Status.GENERATING ∨ m._status = some Status.LOADING) →
          generate_tag env m = { state := m, effects := [], thrown := none })
      ∧ (¬ (m._status = some Status.GENERATING ∨ m._status = some Status.LOADING) →
          execCount ((generate_tag env m).effects
            ++ (generate_tag env1 (generate_tag env m).state).effects) = 1) := by
  have hreset := reset_if_need_same_root env m hroot
  by_cases hst : m._status = some Status.GENERATING ∨ m._status = some Status.LOADING
  · have hfirst : generate_tag env m = { state := m, effects := [], thrown := none } := by
      simp [generate_tag, hreset, hst]
    have hreset1 := reset_if_need_same_root env1 m (hroot.trans hroot1.symm)
    refine ⟨?_, fun _ => hfirst, fun h => absurd hst h⟩
    rw [hfirst]
    simp [generate_tag, hreset1, hst]
  · have hfirst : generate_tag env m
        = { state := { m with _status := some Status.LOADING }
            effects :=
              [Effect.print_info "Generating ctag file...".toList,
               Effect.exec generateCommand m._current_path]
            thrown := none } := by
      simp [generate_tag, hreset, hst]
    have hreset1 := reset_if_need_same_root env1 { m with _status := some Status.LOADING }
      (hroot.trans hroot1.symm)
    have hsecond : generate_tag env1 { m with _status := some Status.LOADING }
        = { state := { m with _status := some Status.LOADING }, effects := [], thrown := none } := by
      simp [generate_tag, hreset1]
    refine ⟨?_, fun h => absurd h hst, fun _ => ?_⟩
    · rw [hfirst]
      exact hsecond
    · rw [hfirst]
      simp only [hsecond]
      rfl

/-- Witness of `generate_tag_twice`: a manager of `/ws` with status `NONE`,
in the workspace `/ws`. -/
theorem generate_tag_twice_witness :
    generate_tag (sampleEnv true) (generate_tag (sampleEnv true) (sampleManager Status.NONE [])).state
        = { state := (generate_tag (sampleEnv true) (sampleManager Status.NONE [])).state,
            effects := [], thrown := none }
      ∧ (((sampleManager Status.NONE [])._status = some Status.GENERATING
            ∨ (sampleManager Status.NONE [])._status = some Status.LOADING) →
          generate_tag (sampleEnv true) (sampleManager Status.NONE [])
            = { state := sampleManager Status.NONE [], effects := [], thrown := none })
      ∧ (¬ ((sampleManager Status.NONE [])._status = some Status.GENERATING
            ∨ (sampleManager Status.NONE [])._status = some Status.LOADING) →
          execCount ((generate_tag (sampleEnv true) (sampleManager Status.NONE [])).effects
            ++ (generate_tag (sampleEnv true)
                  (generate_tag (sampleEnv true) (sampleManager Status.NONE [])).state).effects)
            = 1) :=
  generate_tag_twice (sampleEnv true) (sampleEnv true) (sampleManager Status.NONE [])
    (by decide) (by decide)

/-- Two calls of `generate_tag` in a row on the sample manager start the
generator once, by evaluation. -/
theorem generate_tag_twice_count :
    execCount ((generate_tag (sampleEnv true) (sampleManager Status.NONE [])).effects
      ++ (generate_tag (sampleEnv true)
            (generate_tag (sampleEnv true) (sampleManager Status.NONE [])).state).effects) = 1 := by
  decide

/-- C12, at the failing input: a manager remembers the root `/old`, has
status `LOADED` and the store `[foo<TAB>A.php<TAB>10;"<TAB>f]`; the active root
is `/ws`. The search for `foo` hands the label of the old line to the
selection UI, while `load_tags` in the same situation empties the store. -/
theorem search_sees_old_root_store :
    (oldRootManager [fooLine])._current_path ≠ (sampleEnv true).rootPath
      ∧ search asciiLower (oldRootManager [fooLine]) (some "foo".toList)
          = Except.ok [Effect.showQuickPick [tagLine ["foo", "A.php"]]]
      ∧ _tag_search_list asciiLower (oldRootManager [fooLine])._tags "foo".toList
          = Except.ok [fooLine]
      ∧ (_reset_if_need (sampleEnv true) (oldRootManager [fooLine])).state._tags = [] := by
  decide

/-- The method `search` never compares the remembered root with the active
one: with status `LOADED` it searches the store it finds. -/
theorem search_loaded (toLowerCase : Str → Str) (m : CTAG_Manager) (q : Option Str)
    (hst : m._status = some Status.LOADED) :
    search toLowerCase m q = _tag_search toLowerCase m q := by
  simp [search, hst]

/-- C14 (as amended): with the workspace root unchanged, `load_tags` is a
no-op (state unchanged, no read started, no exception) when the status is
`LOADED`, and when the status is `LOADING` and the tag file exists. -/
theorem load_tags_noop (env : Env) (m : CTAG_Manager)
    (hroot : m._current_path = env.rootPath)
    (hst : m._status = some Status.LOADED
      ∨ (m._status = some Status.LOADING ∧ env.file_exists m._ctags_tagpath = true)) :
    load_tags env m = { state := m, effects := [], thrown := none } := by
  have hreset := reset_if_need_same_root env m hroot
  rcases hst with h | ⟨h, hex⟩
  · simp [load_tags, hreset, h]
  · simp [load_tags, _get_tagpath, hreset, h, hex, _load_tags]

/-- Witness of `load_tags_noop`: status `LOADING`, the tag file exists. -/
theorem load_tags_noop_witness :
    load_tags (sampleEnv true) (sampleManager Status.LOADING [])
      = { state := sampleManager Status.LOADING [], effects := [], thrown := none } :=
  load_tags_noop (sampleEnv true) (sampleManager Status.LOADING []) (by decide)
    (Or.inr ⟨by decide, by decide⟩)

/-- C14, counterexample: with status `LOADING`, the root unchanged and no tag
file on disk (a generation is running for the first time), `load_tags` is not
a no-op that raises no error: the call ends with an exception. -/
theorem load_tags_loading_no_file :
    (sampleManager Status.LOADING [])._current_path = noFileEnv.rootPath
      ∧ (load_tags noFileEnv (sampleManager Status.LOADING [])).thrown ≠ none
      ∧ load_tags noFileEnv (sampleManager Status.LOADING [])
          ≠ { state := sampleManager Status.LOADING [], effects := [], thrown := none } := by
  decide

/-- C15, the defect: with the root unchanged and a status that is neither
`LOADING` nor `LOADED`, when the tag file does not exist `load_tags` starts no
read and leaves the state unchanged, but it reports no message: the call
`error(...)` names an unbound identifier and ends with a `ReferenceError`.
When the file exists the status becomes `LOADING`. -/
theorem load_tags_missing_file (env : Env) (m : CTAG_Manager)
    (hroot : m._current_path = env.rootPath)
    (hst : m._status ≠ some Status.LOADING ∧ m._status ≠ some Status.LOADED) :
    (env.file_exists m._ctags_tagpath = false →
        load_tags env m = { state := m, effects := [], thrown := some JSError.ReferenceError })
      ∧ (env.file_exists m._ctags_tagpath = true →
        (load_tags env m).state._status = some Status.LOADING) := by
  have hreset := reset_if_need_same_root env m hroot
  obtain ⟨h1, h2⟩ := hst
  constructor
  · intro hex
    simp [load_tags, _get_tagpath, hreset, h2, hex]
  · intro hex
    by_cases hsize : env.test_file_size m._ctags_tagpath LARGE_FILE_SIZE_BYTE = true
    · simp [load_tags, _get_tagpath, hreset, h1, h2, hex, _load_tags, hsize]
    · simp [load_tags, _get_tagpath, hreset, h1, h2, hex, _load_tags, hsize]

/-- Witness of `load_tags_missing_file`: status `NONE`, no tag file. -/
theorem load_tags_missing_file_witness :
    (noFileEnv.file_exists (sampleManager Status.NONE [])._ctags_tagpath = false →
        load_tags noFileEnv (sampleManager Status.NONE [])
          = { state := sampleManager Status.NONE [], effects := [],
              thrown := some JSError.ReferenceError })
      ∧ (noFileEnv.file_exists (sampleManager Status.NONE [])._ctags_tagpath = true →
        (load_tags noFileEnv (sampleManager Status.NONE [])).state._status
          = some Status.LOADING) :=
  load_tags_missing_file noFileEnv (sampleManager Status.NONE []) (by decide)
    ⟨by decide, by decide⟩

/-! ## The store -/

theorem reset_if_need_tags (env : Env) (m : CTAG_Manager) :
    (_reset_if_need env m).state._tags = m._tags ∨ (_reset_if_need env m).state._tags = [] := by
  unfold _reset_if_need
  split_ifs with h
  · cases env.rootPath with
    | none => exact Or.inl rfl
    | some root => exact Or.inr rfl
  · exact Or.inl rfl

theorem load_tags_start_tags (env : Env) (m : CTAG_Manager) :
    (_load_tags env m).state._tags = m._tags := by
  by_cases h : m._status = some Status.LOADING
  · simp [_load_tags, h]
  · by_cases hs : env.test_file_size m._ctags_tagpath LARGE_FILE_SIZE_BYTE = true
    · simp [_load_tags, h, hs]
    · simp [_load_tags, h, hs]

theorem generate_tag_tags (env : Env) (m : CTAG_Manager) :
    (generate_tag env m).state._tags = m._tags ∨ (generate_tag env m).state._tags = [] := by
  have hreset := reset_if_need_tags env m
  unfold generate_tag
  generalize _reset_if_need env m = r at hreset ⊢
  obtain ⟨st, eff, thrown⟩ := r
  cases thrown with
  | some e => simpa using hreset
  | none =>
    simp only
    split_ifs <;> simpa using hreset

theorem load_tags_tags (env : Env) (m : CTAG_Manager) :
    (load_tags env m).state._tags = m._tags ∨ (load_tags env m).state._tags = [] := by
  have hreset := reset_if_need_tags env m
  unfold load_tags
  generalize _reset_if_need env m = r at hreset ⊢
  obtain ⟨st, eff, thrown⟩ := r
  cases thrown with
  | some e => simpa using hreset
  | none =>
    simp only
    split_ifs
    · simpa using hreset
    · rw [load_tags_start_tags]
      simpa using hreset
    · simpa using hreset

theorem storeClean_of_tags (m m1 : CTAG_Manager) (h : StoreClean m)
    (htags : m1._tags = m._tags ∨ m1._tags = []) : StoreClean m1 := by
  intro line hmem
  rcases htags with e | e
  · rw [e] at hmem
    exact h line hmem
  · rw [e] at hmem
    exact absurd hmem (List.not_mem_nil line)

theorem storeClean_step (m : CTAG_Manager) (e : Event) (h : StoreClean m) :
    StoreClean (step m e) := by
  cases e with
  | generate_tag env => exact storeClean_of_tags m _ h (generate_tag_tags env m)
  | generate_tag_done env =>
    exact storeClean_of_tags m _ h (Or.inl (load_tags_start_tags env _))
  | load_tags env => exact storeClean_of_tags m _ h (load_tags_tags env m)
  | line l =>
    intro line hmem
    by_cases hl : l ≠ [] ∧ l.head? ≠ some '!'
    · have hstep : (step m (Event.line l))._tags = m._tags ++ [l] := by
        simp [step, _load_tags_line, hl]
      rw [hstep] at hmem
      rcases List.mem_append.mp hmem with h1 | h1
      · exact h line h1
      · have e1 : line = l := by simpa using h1
        rw [e1]
        simpa [isStored] using hl
    · have hstep : step m (Event.line l) = m := by
        simp [step, _load_tags_line, hl]
      rw [hstep] at hmem
      exact h line hmem
  | load_error => exact storeClean_of_tags m _ h (Or.inl rfl)
  | load_end => exact storeClean_of_tags m _ h (Or.inl rfl)

theorem storeClean_run (events : List Event) :
    ∀ m : CTAG_Manager, StoreClean m → StoreClean (run m events) := by
  induction events with
  | nil => intro m h; exact h
  | cons e es ih =>
    intro m h
    exact ih (step m e) (storeClean_step m e h)

theorem storeClean_new (env : Env) : StoreClean (CTAG_Manager.new env).state := by
  have h0 : StoreClean
      { _ctags_tagpath := [], _current_path := some [], _status := none, _tags := [] } := by
    intro line hmem
    exact absurd hmem (List.not_mem_nil line)
  exact storeClean_of_tags _ _ h0 (reset_if_need_tags env _)

/-- C13: in every state reached from a freshly constructed manager by any
sequence of `generate_tag` and `load_tags` calls (each under the workspace
root of its moment), generator completions, delivered lines and read
failures or completions, every stored line is non-empty and does not begin
with `!`; the completion callback of a load leaves the status `LOADED`; and
a load that delivers `sum<TAB>math.php<TAB>5;"<TAB>f` and `!comment` into the empty
store leaves exactly the first line. -/
theorem store_never_holds_comment (env : Env) (events : List Event) :
    (∀ line ∈ (run (CTAG_Manager.new env).state events)._tags,
        line ≠ [] ∧ line.head? ≠ some '!')
      ∧ (_load_tags_end (run (CTAG_Manager.new env).state events)).state._status
          = some Status.LOADED
      ∧ run (sampleManager Status.NONE [])
            [Event.load_tags (sampleEnv true), Event.line sumLine,
             Event.line "!comment".toList, Event.load_end]
          = sampleManager Status.LOADED [sumLine] := by
  refine ⟨?_, rfl, by decide⟩
  intro line hmem
  have h := storeClean_run events _ (storeClean_new env) line hmem
  simpa [isStored] using h

theorem deliver_isStored (m : CTAG_Manager) (lines : List Str) :
    deliver m lines = { m with _tags := m._tags ++ lines.filter isStored } :=
  deliver_eq lines m

/-- C19: a load appends. When `_load_tags` starts a read (status other than
`LOADING`, size test passed), the read delivers the lines `L` and completes,
the status is `LOADED` and the store is the store before followed by the
lines of `L` that are non-empty and do not begin with `!`, in file order; in
particular, when the store before was loaded from the same lines, the store
after holds them twice. The same holds for the load that follows a
`generate_tag` call issued with status `LOADED` and the root unchanged. -/
theorem load_appends (env : Env) (m : CTAG_Manager) (L : List Str)
    (hst : m._status ≠ some Status.LOADING)
    (hsize : env.test_file_size m._ctags_tagpath LARGE_FILE_SIZE_BYTE = true) :
    (_load_tags env m).effects = [Effect.parse_file_line m._ctags_tagpath]
      ∧ (_load_tags_end (deliver (_load_tags env m).state L)).state
          = { m with _status := some Status.LOADED, _tags := m._tags ++ L.filter isStored }
      ∧ (m._status = some Status.LOADED → m._current_path = env.rootPath →
          execCount (generate_tag env m).effects = 1
            ∧ (generate_tag_done env (generate_tag env m).state).effects
                = [Effect.print_info
                    "Ctag generation has been completed. Loading the tag file low..".toList,
                   Effect.parse_file_line m._ctags_tagpath]
            ∧ (_load_tags_end
                (deliver (generate_tag_done env (generate_tag env m).state).state L)).state
                = { m with _tags := m._tags ++ L.filter isStored }
            ∧ (m._tags = L.filter isStored →
                (_load_tags_end
                  (deliver (generate_tag_done env (generate_tag env m).state).state L)).state._tags
                  = L.filter isStored ++ L.filter isStored)) := by
  refine ⟨?_, ?_, ?_⟩
  · simp [_load_tags, hst, hsize]
  · rw [deliver_isStored]
    simp [_load_tags, hst, hsize, _load_tags_end]
  · intro hloaded hroot
    have hreset := reset_if_need_same_root env m hroot
    have hgen : generate_tag env m
        = { state := { m with _status := some Status.LOADING }
            effects :=
              [Effect.print_info "Generating ctag file...".toList,
               Effect.exec generateCommand m._current_path]
            thrown := none } := by
      simp [generate_tag, hreset, hloaded]
    have hdone : generate_tag_done env { m with _status := some Status.LOADING }
        = { state := { m with _status := some Status.LOADING }
            effects :=
              [Effect.print_info
                "Ctag generation has been completed. Loading the tag file low..".toList,
               Effect.parse_file_line m._ctags_tagpath]
            thrown := none } := by
      simp [generate_tag_done, _load_tags, hsize]
    have hfinal : (_load_tags_end (deliver { m with _status := some Status.LOADING } L)).state
        = { m with _tags := m._tags ++ L.filter isStored } := by
      rw [deliver_isStored]
      cases m
      simp only [_load_tags_end] at *
      simp [hloaded]
    rw [hgen]
    refine ⟨rfl, ?_, ?_, ?_⟩
    · rw [hdone]
    · rw [hdone]
      exact hfinal
    · intro hsame
      rw [hdone, hfinal]
      simp only
      rw [hsame]

/-- Witness of `load_appends`: the store `[sum<TAB>math.php<TAB>5;"<TAB>f]`, status
`LOADED`, and a file made of that line and a comment line. -/
theorem load_appends_witness :
    (_load_tags_end (deliver (_load_tags (sampleEnv true) (sampleManager Status.LOADED [sumLine])).state
        [sumLine, "!comment".toList])).state
        = { sampleManager Status.LOADED [sumLine] with
            _status := some Status.LOADED
            _tags := (sampleManager Status.LOADED [sumLine])._tags
              ++ [sumLine, "!comment".toList].filter isStored }
      ∧ (_load_tags_end
          (deliver (generate_tag_done (sampleEnv true)
            (generate_tag (sampleEnv true) (sampleManager Status.LOADED [sumLine])).state).state
            [sumLine, "!comment".toList])).state._tags
        = [sumLine, "!comment".toList].filter isStored
            ++ [sumLine, "!comment".toList].filter isStored :=
  ⟨(load_appends (sampleEnv true) (sampleManager Status.LOADED [sumLine])
      [sumLine, "!comment".toList] (by decide) (by decide)).2.1,
   ((load_appends (sampleEnv true) (sampleManager Status.LOADED [sumLine])
      [sumLine, "!comment".toList] (by decide) (by decide)).2.2 (by decide) (by decide)).2.2.2
        (by decide)⟩

/-- A generation issued from the loaded store of the sample file, run to
completion on the same file, leaves the record twice, by evaluation. -/
theorem regenerate_doubles_store :
    run (sampleManager Status.LOADED [sumLine])
        [Event.generate_tag (sampleEnv true), Event.generate_tag_done (sampleEnv true),
         Event.line sumLine, Event.line "!comment".toList, Event.load_end]
      = sampleManager Status.LOADED [sumLine, sumLine] := by
  decide

/-! ## Labels and their resolution -/

theorem split_cons_cons (sep : Char) :
    ∀ (s f g : Str) (rest : List Str), split sep s = f :: g :: rest →
      ∃ s1, s = f ++ sep :: s1 ∧ split sep s1 = g :: rest := by
  intro s
  induction s with
  | nil =>
    intro f g rest h
    simp [split] at h
  | cons c cs ih =>
    intro f g rest h
    by_cases hc : c = sep
    · subst hc
      simp only [split, if_true] at h
      obtain ⟨hf, hrest⟩ := List.cons.inj h
      exact ⟨cs, by rw [← hf]; rfl, hrest⟩
    · cases hs : split sep cs with
      | nil => exact absurd hs (split_ne_nil sep cs)
      | cons field fields =>
        simp only [split, hc, if_false, hs] at h
        obtain ⟨hf, hfields⟩ := List.cons.inj h
        obtain ⟨s1, hcs, hs1⟩ := ih field g rest (by rw [hs, hfields])
        exact ⟨s1, by rw [← hf, hcs]; rfl, hs1⟩

/-- A line `_extract_tag` accepts begins with its symbol, a tab, its file
and a tab. -/
theorem line_of_extract_tag (line : Str) (tag : TagInfo) (h : _extract_tag line = some tag) :
    ∃ s2, line = tag.symbol ++ TAB :: (tag.file ++ TAB :: s2) := by
  unfold _extract_tag at h
  rcases hsp : split TAB line with _ | ⟨f0, _ | ⟨f1, _ | ⟨f2, _ | ⟨f3, rest⟩⟩⟩⟩
  · rw [hsp] at h; simp at h
  · rw [hsp] at h; simp at h
  · rw [hsp] at h; simp at h
  · rw [hsp] at h; simp at h
  · rw [hsp] at h
    simp only [Option.some.injEq] at h
    obtain ⟨s1, hline, hs1⟩ := split_cons_cons TAB line f0 f1 (f2 :: f3 :: rest) hsp
    obtain ⟨s2, hs1eq, _⟩ := split_cons_cons TAB s1 f1 f2 (f3 :: rest) hs1
    refine ⟨s2, ?_⟩
    rw [← h, hline, hs1eq]

theorem indexOfFrom_ge (needle : Str) :
    ∀ (s : Str) (i : Nat), indexOfFrom needle s i = -1 ∨ (i : Int) ≤ indexOfFrom needle s i := by
  intro s
  induction s with
  | nil =>
    intro i
    simp only [indexOfFrom]
    split_ifs
    · exact Or.inr (le_refl _)
    · exact Or.inl rfl
  | cons c cs ih =>
    intro i
    simp only [indexOfFrom]
    split_ifs
    · exact Or.inr (le_refl _)
    · rcases ih (i + 1) with h | h
      · exact Or.inl h
      · exact Or.inr (by push_cast at h; omega)

/-- The test `s.indexOf(label) == 0` holds exactly when `s` begins with `label`. -/
theorem indexOf_eq_zero_iff (s label : Str) : indexOf s label = 0 ↔ label <+: s := by
  unfold indexOf
  cases s with
  | nil =>
    by_cases h : label.isPrefixOf [] = true
    · simp only [indexOfFrom, h, if_true]
      exact ⟨fun _ => List.isPrefixOf_iff_prefix.mp h, fun _ => rfl⟩
    · simp only [indexOfFrom, h]
      constructor
      · intro h1; simp at h1
      · intro h1; exact absurd (List.isPrefixOf_iff_prefix.mpr h1) h
  | cons c cs =>
    by_cases h : label.isPrefixOf (c :: cs) = true
    · simp only [indexOfFrom, h, if_true]
      exact ⟨fun _ => List.isPrefixOf_iff_prefix.mp h, fun _ => rfl⟩
    · have hb : label.isPrefixOf (c :: cs) = false := Bool.eq_false_iff.mpr h
      simp only [indexOfFrom, hb, Bool.false_eq_true, if_false]
      constructor
      · intro h1
        rcases indexOfFrom_ge label cs (0 + 1) with h2 | h2
        · rw [h2] at h1; simp at h1
        · rw [h1] at h2; simp at h2
      · intro h1; exact absurd (List.isPrefixOf_iff_prefix.mpr h1) h

/-- The label of an accepted line, in either display mode, is a prefix of the line. -/
theorem label_prefix_of_line (line : Str) (tag : TagInfo) (showPath : Bool)
    (h : _extract_tag line = some tag) :
    tag.symbol ++ (if showPath then TAB :: tag.file else []) <+: line := by
  obtain ⟨s2, hline⟩ := line_of_extract_tag line tag h
  cases showPath with
  | true =>
    refine ⟨TAB :: s2, ?_⟩
    rw [hline]
    simp
  | false =>
    refine ⟨TAB :: (tag.file ++ TAB :: s2), ?_⟩
    rw [hline]
    simp

/-- The label of an accepted line of the list is among the labels handed to
the selection UI. -/
theorem label_mem_quickPickLabels (list : List Str) (line : Str) (tag : TagInfo)
    (showPath : Bool) (hmem : line ∈ list) (h : _extract_tag line = some tag) :
    tag.symbol ++ (if showPath then TAB :: tag.file else []) ∈ quickPickLabels list showPath := by
  unfold quickPickLabels
  rw [List.mem_filterMap]
  exact ⟨line, hmem, by rw [h]; rfl⟩

theorem goto_tag_on_doc_accepted (env : Env) (m : CTAG_Manager) (document : Document)
    (root line : Str) (tag : TagInfo) (hroot : m._current_path = some root)
    (h : _extract_tag line = some tag) :
    _goto_tag_on_doc env m (some document) line
      = Except.ok (navigationOf env root document tag) := by
  unfold _goto_tag_on_doc navigationOf
  rw [h]
  simp only [hroot]
  split_ifs <;> rfl

/-- With an active editor and a defined root, when every entry that begins
with the label is accepted by `_extract_tag`, the resolution loop ends
without exception and makes a request for every entry that begins with the
label. -/
theorem show_quick_pick_loop_accepted (env : Env) (m : CTAG_Manager) (document : Document)
    (root label : Str) (hroot : m._current_path = some root) :
    ∀ list : List Str, (∀ l ∈ list, label <+: l → _extract_tag l ≠ none) →
      (_show_quick_pick_loop env m (some document) label list).thrown = none
        ∧ ∀ l ∈ list, ∀ tag, _extract_tag l = some tag → label <+: l →
            navigationOf env root document tag
              ∈ (_show_quick_pick_loop env m (some document) label list).navigations := by
  intro list
  induction list with
  | nil =>
    intro _
    exact ⟨rfl, fun l hl => absurd hl (List.not_mem_nil l)⟩
  | cons line rest ih =>
    intro hall
    have hrest : ∀ l ∈ rest, label <+: l → _extract_tag l ≠ none :=
      fun l hl => hall l (List.mem_cons_of_mem _ hl)
    obtain ⟨ih1, ih2⟩ := ih hrest
    by_cases hidx : indexOf line label = 0
    · have hpre0 : label <+: line := (indexOf_eq_zero_iff line label).mp hidx
      cases htag : _extract_tag line with
      | none => exact absurd htag (hall line (List.mem_cons_self _ _) hpre0)
      | some tag0 =>
        have hgoto := goto_tag_on_doc_accepted env m document root line tag0 hroot htag
        simp only [_show_quick_pick_loop, hidx, if_true, hgoto]
        refine ⟨ih1, ?_⟩
        intro l hl tag hltag hpre
        rcases List.mem_cons.mp hl with e | e
        · rw [e, htag] at hltag
          have e1 : tag0 = tag := Option.some.inj hltag
          rw [← e1]
          exact List.mem_cons_self _ _
        · exact List.mem_cons_of_mem _ (ih2 l e tag hltag hpre)
    · simp only [_show_quick_pick_loop, hidx, if_false]
      refine ⟨ih1, ?_⟩
      intro l hl tag hltag hpre
      rcases List.mem_cons.mp hl with e | e
      · rw [e] at hpre
        exact absurd ((indexOf_eq_zero_iff line label).mpr hpre) hidx
      · exact ih2 l e tag hltag hpre

/-- Every line of the list `_tag_search` collects is accepted by `_extract_tag`. -/
theorem tag_search_list_accepted (toLowerCase : Str → Str) (tags : List Str) (q : Str)
    (list : List Str) (h : _tag_search_list toLowerCase tags q = Except.ok list) :
    ∀ line ∈ list, _extract_tag line ≠ none := by
  unfold _tag_search_list at h
  by_cases hall : ∀ line ∈ tags, _extract_tag line ≠ none
  · rw [tag_search_loop_accepted toLowerCase _ _ tags [] hall] at h
    have hlist := Except.ok.inj h
    intro line hmem
    rw [← hlist] at hmem
    simp only [List.nil_append] at hmem
    exact hall line (List.mem_of_mem_filter hmem)
  · have hex : ∃ line ∈ tags, _extract_tag line = none := by
      by_contra hno
      apply hall
      intro line hmem hnone
      exact hno ⟨line, hmem, hnone⟩
    rw [tag_search_loop_rejected toLowerCase _ _ tags [] hex] at h
    exact absurd h (by simp)

/-- On a list of accepted lines there is one label per line, in order: the
symbol, followed by a tab and the file when `showPath` is set. -/
theorem quickPickLabels_accepted (showPath : Bool) :
    ∀ list : List Str, (∀ line ∈ list, _extract_tag line ≠ none) →
      List.Forall₂
        (fun line label => ∃ tag, _extract_tag line = some tag
          ∧ label = tag.symbol ++ (if showPath then TAB :: tag.file else []))
        list (quickPickLabels list showPath) := by
  intro list
  induction list with
  | nil => intro _; exact List.Forall₂.nil
  | cons line rest ih =>
    intro hall
    have hrest : ∀ l ∈ rest, _extract_tag l ≠ none :=
      fun l hl => hall l (List.mem_cons_of_mem _ hl)
    cases htag : _extract_tag line with
    | none => exact absurd htag (hall line (List.mem_cons_self _ _))
    | some tag =>
      have hlabels : quickPickLabels (line :: rest) showPath
          = (tag.symbol ++ (if showPath then TAB :: tag.file else []))
              :: quickPickLabels rest showPath := by
        simp [quickPickLabels, List.filterMap_cons, htag]
      rw [hlabels]
      exact List.Forall₂.cons ⟨tag, htag, rfl⟩ (ih hrest)

/-- C16 (as amended): for every non-empty list a search collects, in symbol
mode as in path mode, the labels handed to the selection UI are, line by
line, the symbol followed by a tab and the file path; the outline hands over,
for its accepted lines, the symbol alone. -/
theorem search_labels_show_path (toLowerCase : Str → Str) (m : CTAG_Manager) (q : Str)
    (list : List Str) (hq : q ≠ [])
    (hlist : _tag_search_list toLowerCase m._tags q = Except.ok list) (hne : list ≠ []) :
    _tag_search toLowerCase m (some q)
        = Except.ok [Effect.showQuickPick (quickPickLabels list true)]
      ∧ List.Forall₂
          (fun line label => ∃ tag, _extract_tag line = some tag
            ∧ label = tag.symbol ++ TAB :: tag.file)
          list (quickPickLabels list true)
      ∧ ∀ stdout : Str, stdout ≠ [] →
          outline_done stdout
            = [Effect.showQuickPick
                ((outlineLines stdout).filterMap fun line =>
                  (_extract_tag line).map fun tag => tag.symbol)] := by
  refine ⟨?_, ?_, ?_⟩
  · cases q with
    | nil => exact absurd rfl hq
    | cons c cs =>
      have hpos : list.length > 0 := List.length_pos.mpr hne
      simp only [_tag_search, hlist, hpos, if_true, _show_quick_pick]
  · have h := quickPickLabels_accepted true list
      (tag_search_list_accepted toLowerCase m._tags q list hlist)
    simpa using h
  · intro stdout hout
    simp [outline_done, hout, _show_quick_pick, quickPickLabels]

/-- Witness of `search_labels_show_path`: the symbol-mode query `foo` on the
store of `foo` and `Foo2`. -/
theorem search_labels_show_path_witness :
    _tag_search asciiLower (sampleManager Status.LOADED [fooLine, foo2Line]) (some "foo".toList)
        = Except.ok [Effect.showQuickPick (quickPickLabels [fooLine, foo2Line] true)]
      ∧ List.Forall₂
          (fun line label => ∃ tag, _extract_tag line = some tag
            ∧ label = tag.symbol ++ TAB :: tag.file)
          [fooLine, foo2Line] (quickPickLabels [fooLine, foo2Line] true)
      ∧ ∀ stdout : Str, stdout ≠ [] →
          outline_done stdout
            = [Effect.showQuickPick
                ((outlineLines stdout).filterMap fun line =>
                  (_extract_tag line).map fun tag => tag.symbol)] :=
  search_labels_show_path asciiLower (sampleManager Status.LOADED [fooLine, foo2Line])
    "foo".toList [fooLine, foo2Line] (by decide) (by decide) (by decide)

/-- C16, counterexample: the symbol-mode query `foo` on the store
`[foo<TAB>A.php<TAB>10;"<TAB>f]` hands the label `foo<TAB>A.php` to the selection
UI, not the symbol `foo` alone. -/
theorem search_symbol_mode_label_has_path :
    searchPath "foo".toList = false
      ∧ _tag_search asciiLower (sampleManager Status.LOADED [fooLine]) (some "foo".toList)
          = Except.ok [Effect.showQuickPick [tagLine ["foo", "A.php"]]]
      ∧ _tag_search asciiLower (sampleManager Status.LOADED [fooLine]) (some "foo".toList)
          ≠ Except.ok [Effect.showQuickPick ["foo".toList]] := by
  decide

/-- C17, at the failing input: for the list
`[foo<TAB>a.php<TAB>1;"<TAB>f, foobar<TAB>b.php<TAB>2;"<TAB>f]` in symbol-only display
the labels are `foo` and `foobar`; when `foo` is chosen the resolution loop
navigates twice, to `a.php` line 0 and then to `b.php` line 1. -/
theorem resolution_navigates_to_every_match :
    quickPickLabels [fooALine, foobarLine] false = ["foo".toList, "foobar".toList]
      ∧ _show_quick_pick_chosen (sampleEnv true) (sampleManager Status.LOADED [])
            sampleEditor [fooALine, foobarLine] (some "foo".toList)
          = { navigations :=
                [Navigation.openTextDocument "/ws/a.php".toList (JSNum.fin 0),
                 Navigation.openTextDocument "/ws/b.php".toList (JSNum.fin 1)]
              thrown := none } := by
  decide

/-- The resolution of a label that no other entry begins with navigates
once: `foobar` chosen from the same list. -/
theorem resolution_single_match :
    _show_quick_pick_chosen (sampleEnv true) (sampleManager Status.LOADED [])
        sampleEditor [fooALine, foobarLine] (some "foobar".toList)
      = { navigations := [Navigation.openTextDocument "/ws/b.php".toList (JSNum.fin 1)]
          thrown := none } := by
  decide

theorem splitCRLF_ne_nil : ∀ s : Str, splitCRLF s ≠ []
  | [] => by simp [splitCRLF]
  | [c] => by simp [splitCRLF]
  | c :: d :: cs => by
    by_cases h : c = CR ∧ d = LF
    · simp [splitCRLF, h]
    · cases hs : splitCRLF (d :: cs) with
      | nil => exact absurd hs (splitCRLF_ne_nil (d :: cs))
      | cons field fields => simp [splitCRLF, h, hs]

theorem splitCRLF_line (line rest : Str) (h : LF ∉ line) :
    splitCRLF (line ++ CR :: LF :: rest) = line :: splitCRLF rest := by
  induction line with
  | nil => simp [splitCRLF]
  | cons c cs ih =>
    have hcs : LF ∉ cs := fun e => h (List.mem_cons_of_mem _ e)
    cases cs with
    | nil =>
      have h1 : ¬ (c = CR ∧ CR = LF) := fun e => absurd e.2 (by decide)
      have h2 : splitCRLF (CR :: LF :: rest) = [] :: splitCRLF rest := by simp [splitCRLF]
      show splitCRLF (c :: CR :: LF :: rest) = [c] :: splitCRLF rest
      rw [splitCRLF, if_neg h1, h2]
    | cons d cs1 =>
      have hd : d ≠ LF := fun e => h (by simp [e])
      have h1 : ¬ (c = CR ∧ d = LF) := fun e => hd e.2
      have h2 := ih hcs
      show splitCRLF (c :: d :: (cs1 ++ CR :: LF :: rest)) = (c :: d :: cs1) :: splitCRLF rest
      rw [splitCRLF, if_neg h1]
      have h3 : splitCRLF (d :: (cs1 ++ CR :: LF :: rest)) = (d :: cs1) :: splitCRLF rest := h2
      rw [h3]

/-- When every line of the output is terminated by a carriage return and a
line feed, the list `outline` passes on is the list of the lines. -/
theorem outlineLines_crlfOutput (lines : List Str) (h : ∀ line ∈ lines, LF ∉ line) :
    outlineLines (crlfOutput lines) = lines := by
  have hsplit : ∀ ls : List Str, (∀ line ∈ ls, LF ∉ line) →
      splitCRLF (crlfOutput ls) = ls ++ [[]] := by
    intro ls
    induction ls with
    | nil => intro _; rfl
    | cons l ls ih =>
      intro hl
      have h1 := splitCRLF_line l (crlfOutput ls) (hl l (List.mem_cons_self _ _))
      have h2 := ih (fun x hx => hl x (List.mem_cons_of_mem _ hx))
      show splitCRLF (l ++ CR :: LF :: crlfOutput ls) = l :: ls ++ [[]]
      rw [h1, h2]
      rfl
  unfold outlineLines
  rw [hsplit lines h]
  simp

/-- C18, at the failing inputs: for the output `sum<TAB>math.php<TAB>5;"<TAB>f`
terminated by a bare line feed, the list `outline` passes on is empty and the
selection UI is given no label; for an output of two records separated by a
carriage return and a line feed whose last record has no terminator, the
list holds the first record only. -/
theorem outline_loses_records :
    outlineLines (sumLine ++ [LF]) = []
      ∧ outline_done (sumLine ++ [LF]) = [Effect.showQuickPick []]
      ∧ outlineLines (sumLine ++ CR :: LF :: fooLine) = [sumLine] := by
  decide

/-- C20 (as amended): for every line `_extract_tag` accepts and both display
modes, the label rendered for the line is among the labels handed to the
selection UI, is a prefix of the raw line, and passes the test
`indexOf(label) == 0` of the resolution loop; and when an editor is active,
the remembered root is defined and every entry of the list that begins with
the label is accepted by `_extract_tag`, the loop ends without exception and
the navigation to the line is among the navigations it performs. -/
theorem label_round_trip (env : Env) (m : CTAG_Manager) (document : Document) (root : Str)
    (list : List Str) (line : Str) (tag : TagInfo) (showPath : Bool)
    (hroot : m._current_path = some root)
    (hall : ∀ l ∈ list,
      tag.symbol ++ (if showPath then TAB :: tag.file else []) <+: l → _extract_tag l ≠ none)
    (hmem : line ∈ list) (htag : _extract_tag line = some tag) :
    tag.symbol ++ (if showPath then TAB :: tag.file else []) ∈ quickPickLabels list showPath
      ∧ tag.symbol ++ (if showPath then TAB :: tag.file else []) <+: line
      ∧ indexOf line (tag.symbol ++ (if showPath then TAB :: tag.file else [])) = 0
      ∧ (_show_quick_pick_chosen env m (some document) list
            (some (tag.symbol ++ (if showPath then TAB :: tag.file else [])))).thrown = none
      ∧ navigationOf env root document tag
          ∈ (_show_quick_pick_chosen env m (some document) list
              (some (tag.symbol ++ (if showPath then TAB :: tag.file else [])))).navigations := by
  have hpre := label_prefix_of_line line tag showPath htag
  obtain ⟨h1, h2⟩ := show_quick_pick_loop_accepted env m document root _ hroot list hall
  exact ⟨label_mem_quickPickLabels list line tag showPath hmem htag, hpre,
    (indexOf_eq_zero_iff _ _).mpr hpre, h1, h2 line hmem tag htag hpre⟩

/-- Witness of `label_round_trip`: the line `foo<TAB>a.php<TAB>1;"<TAB>f` in the list
`[foo<TAB>a.php<TAB>1;"<TAB>f, foobar<TAB>b.php<TAB>2;"<TAB>f]`, in the display with path. -/
theorem label_round_trip_witness :
    "foo".toList ++ (if true then TAB :: "a.php".toList else [])
        ∈ quickPickLabels [fooALine, foobarLine] true
      ∧ "foo".toList ++ (if true then TAB :: "a.php".toList else []) <+: fooALine
      ∧ indexOf fooALine ("foo".toList ++ (if true then TAB :: "a.php".toList else [])) = 0
      ∧ (_show_quick_pick_chosen (sampleEnv true) (sampleManager Status.LOADED [])
            (some { fileName := "/ws/index.php".toList, isUntitled := false })
            [fooALine, foobarLine]
            (some ("foo".toList ++ (if true then TAB :: "a.php".toList else [])))).thrown = none
      ∧ navigationOf (sampleEnv true) "/ws".toList
            { fileName := "/ws/index.php".toList, isUntitled := false }
            { symbol := "foo".toList, file := "a.php".toList, lineNum := JSNum.fin 0,
              type := "f".toList }
          ∈ (_show_quick_pick_chosen (sampleEnv true) (sampleManager Status.LOADED [])
              (some { fileName := "/ws/index.php".toList, isUntitled := false })
              [fooALine, foobarLine]
              (some ("foo".toList ++ (if true then TAB :: "a.php".toList else [])))).navigations :=
  label_round_trip (sampleEnv true) (sampleManager Status.LOADED [])
    { fileName := "/ws/index.php".toList, isUntitled := false } "/ws".toList
    [fooALine, foobarLine] fooALine
    { symbol := "foo".toList, file := "a.php".toList, lineNum := JSNum.fin 0, type := "f".toList }
    true (by decide) (by decide) (by decide) (by decide)

/-- C20, counterexample: the line `sum<TAB>math.php<TAB>5;"<TAB>f` is accepted and its
label is returned unmodified, yet no navigation is made: when no editor is
active; when the list holds, before the line, the entry `sum` that begins
with the label and is rejected by `_extract_tag`; and when the remembered
root is `undefined`. Each time the loop ends with a `TypeError`. -/
theorem label_round_trip_needs_context :
    _show_quick_pick_chosen (sampleEnv true) (sampleManager Status.LOADED [sumLine]) none
        [sumLine] (some (tagLine ["sum", "math.php"]))
        = { navigations := [], thrown := some JSError.TypeError }
      ∧ _show_quick_pick_chosen (sampleEnv true) (sampleManager Status.LOADED []) sampleEditor
          ["sum".toList, sumLine] (some "sum".toList)
        = { navigations := [], thrown := some JSError.TypeError }
      ∧ _show_quick_pick_chosen (sampleEnv true)
          { sampleManager Status.LOADED [sumLine] with _current_path := none } sampleEditor
          [sumLine] (some (tagLine ["sum", "math.php"]))
        = { navigations := [], thrown := some JSError.TypeError } := by
  decide

end CtagManager
